import Mathlib

/-!
# Notification hooks of the store backend

A shallow embedding of the three record hooks registered in `src/main.go`:

* the hook on successful creation of an `orders` record (lines 27-50),
* the first hook on successful update of a `products` record, which creates a
  low stock notification (lines 52-95),
* the second hook on successful update of a `products` record, which removes a
  low stock notification (lines 97-125).

The hooks talk to the framework through four calls (`FindCollectionByNameOrId`,
`FindFirstRecordByFilter`, `Save`, `Delete`) and through `e.Next()`.  The
framework is not part of the repository; it is modelled here as explicit state
passing over the rows of the `notifications` collection, with the outcome of
every call (success or error) supplied by an `Env`.  `log.Printf` lines have no
effect on the store or on the returned value and are left out.
-/

namespace StoreHooks

/-! ## Data model -/

/-- Go `error` values; `Option Err` plays the role of a possibly nil `error`. -/
abbrev Err := String

/-- A row of the `notifications` collection: the record id and the fields
`type`, `order`, `product` and `read`.  An unset text or relation field reads
as the empty string, an unset bool as `false`. -/
structure Record where
  id : String
  type : String
  order : String
  product : String
  read : Bool
  deriving DecidableEq, Repr

/-- A collection handle as returned by `FindCollectionByNameOrId`. -/
structure Collection where
  name : String
  deriving DecidableEq, Repr

/-- The record of an `orders` event; the hook reads `e.Record.Id` only. -/
structure Order where
  id : String
  deriving DecidableEq, Repr

/-- The record of a `products` event; the hooks read `Id`,
`GetInt("stockQuantity")` and `GetInt("reorderLevel")` (Go `int`, signed). -/
structure Product where
  id : String
  stockQuantity : Int
  reorderLevel : Int
  deriving DecidableEq, Repr

/-- The bound filter expression `type = T && product = P` handed to
`FindFirstRecordByFilter`. -/
structure Filter where
  type : String
  product : String
  deriving DecidableEq, Repr

/-- Whether a row satisfies the filter. -/
def Filter.holds (f : Filter) (r : Record) : Bool :=
  r.type == f.type && r.product == f.product

/-- The calls a hook issues to the record store, in the order issued. -/
inductive Call where
  | findCollection (nameOrId : String)
  | findFirst (collection : String) (f : Filter)
  | save (r : Record)
  | delete (r : Record)
  deriving DecidableEq, Repr

/-- Whether a call is a write (`Save` or `Delete`). -/
def Call.isWrite : Call → Bool
  | Call.save _ => true
  | Call.delete _ => true
  | _ => false

/-- Whether a call is a `Save`. -/
def Call.isSave : Call → Bool
  | Call.save _ => true
  | _ => false

/-- Whether a call is a `Delete`. -/
def Call.isDelete : Call → Bool
  | Call.delete _ => true
  | _ => false

/-- Whether a call is a `FindFirstRecordByFilter`. -/
def Call.isLookup : Call → Bool
  | Call.findFirst _ _ => true
  | _ => false

/-- The state threaded through a hook chain: the rows of the `notifications`
collection and the trace of store calls issued so far. -/
structure World where
  notifications : List Record
  calls : List Call
  deriving DecidableEq, Repr

/-- The outcome of the store calls during one hook invocation.  Each hook
issues every kind of call at most once, so one flag per kind suffices.
`newId` is the id the store generates for a freshly saved record. -/
structure Env where
  collectionErr : Bool
  lookupErr : Bool
  saveErr : Bool
  deleteErr : Bool
  newId : String
  deriving DecidableEq, Repr

/-- The event passed to a hook: the affected record and the rest of the hook
chain, `e.Next()`. -/
structure RecordEvent (α : Type) where
  record : α
  next : World → World × Option Err

/-! ## The record store -/

/-- `app.FindCollectionByNameOrId(nameOrId)`: the collection, or an error. -/
def findCollectionByNameOrId (env : Env) (nameOrId : String) (w : World) :
    World × Except Err Collection :=
  let w1 := { w with calls := w.calls ++ [Call.findCollection nameOrId] }
  if env.collectionErr then (w1, Except.error "collection not found")
  else (w1, Except.ok { name := nameOrId })

/-- `core.NewRecord(collection)`: a blank record, not yet stored. -/
def newRecord (_collection : Collection) : Record :=
  { id := "", type := "", order := "", product := "", read := false }

/-- `app.FindFirstRecordByFilter(collection, filter, params)`: the pair
`(record, err)`.  On a failed query the record is nil and the error is set; on
a query without a matching row the record is nil and the error is the no-rows
error; otherwise the first matching row is returned with a nil error. -/
def findFirstRecordByFilter (env : Env) (collection : String) (f : Filter) (w : World) :
    World × Option Record × Option Err :=
  let w1 := { w with calls := w.calls ++ [Call.findFirst collection f] }
  if env.lookupErr then (w1, none, some "query failed")
  else
    match w.notifications.find? f.holds with
    | some r => (w1, some r, none)
    | none => (w1, none, some "sql: no rows in result set")

/-- `app.Save(record)` of a new record: on success the record is stored under
a generated id. -/
def save (env : Env) (r : Record) (w : World) : World × Option Err :=
  let w1 := { w with calls := w.calls ++ [Call.save r] }
  if env.saveErr then (w1, some "save failed")
  else ({ w1 with notifications := w1.notifications ++ [{ r with id := env.newId }] }, none)

/-- `app.Delete(record)`: on success the row with the id of the record is
gone. -/
def delete (env : Env) (r : Record) (w : World) : World × Option Err :=
  let w1 := { w with calls := w.calls ++ [Call.delete r] }
  if env.deleteErr then (w1, some "delete failed")
  else ({ w1 with notifications := w1.notifications.filter (fun x => x.id != r.id) }, none)

/-! ## The hooks of `main` -/

/-- The hook bound with `app.OnRecordAfterCreateSuccess("orders")`
(main.go lines 28-50). -/
def ordersAfterCreateSuccess (env : Env) (e : RecordEvent Order) (w : World) :
    World × Option Err :=
  let orderId := e.record.id
  match findCollectionByNameOrId env "notifications" w with
  | (w1, Except.error _) => e.next w1
  | (w1, Except.ok notificationCollection) =>
    let notification := newRecord notificationCollection
    let notification := { notification with type := "new_order" }
    let notification := { notification with order := orderId }
    match save env notification w1 with
    | (w2, _) => e.next w2

/-- The first hook bound with `app.OnRecordAfterUpdateSuccess("products")`
(main.go lines 53-95): creates the low stock notification. -/
def productsAfterUpdateSuccessCreate (env : Env) (e : RecordEvent Product) (w : World) :
    World × Option Err :=
  let product := e.record
  let productId := product.id
  let currentStock := product.stockQuantity
  let reorderLevel := product.reorderLevel
  if currentStock ≤ reorderLevel ∧ currentStock > 0 then
    match findFirstRecordByFilter env "notifications"
        { type := "low_stock", product := productId } w with
    | (w1, some _, _) => e.next w1
    | (w1, none, _) =>
      match findCollectionByNameOrId env "notifications" w1 with
      | (w2, Except.error _) => e.next w2
      | (w2, Except.ok notificationCollection) =>
        let notification := newRecord notificationCollection
        let notification := { notification with type := "low_stock" }
        let notification := { notification with product := productId }
        match save env notification w2 with
        | (w3, _) => e.next w3
  else e.next w

/-- The second hook bound with `app.OnRecordAfterUpdateSuccess("products")`
(main.go lines 98-125): removes the low stock notification. -/
def productsAfterUpdateSuccessRemove (env : Env) (e : RecordEvent Product) (w : World) :
    World × Option Err :=
  let product := e.record
  let productId := product.id
  let currentStock := product.stockQuantity
  let reorderLevel := product.reorderLevel
  if currentStock > reorderLevel then
    match findFirstRecordByFilter env "notifications"
        { type := "low_stock", product := productId } w with
    | (w1, some existing, none) =>
      match delete env existing w1 with
      | (w2, _) => e.next w2
    | (w1, _, _) => e.next w1
  else e.next w

/-- The hook chain of a `products` update: the hooks run in registration
order, each reached through `e.Next()` of the one before, with the same
event.  `envC` gives the store outcomes during the creating hook, `envR`
during the removing hook. -/
def productsAfterUpdateSuccess (envC envR : Env) (e : RecordEvent Product) (w : World) :
    World × Option Err :=
  productsAfterUpdateSuccessCreate envC
    { e with next := fun w1 => productsAfterUpdateSuccessRemove envR e w1 } w

/-- The end of a hook chain: nothing more runs and no error is returned. -/
def chainEnd : World → World × Option Err := fun w => (w, none)

/-! ## Observations used by the statements -/

/-- The world in which the order hook hands control to `e.Next()`. -/
def afterOrderCreate (env : Env) (o : Order) (w : World) : World :=
  (ordersAfterCreateSuccess env { record := o, next := chainEnd } w).1

/-- The world in which the creating product hook hands control to `e.Next()`. -/
def afterLowStockCreate (env : Env) (p : Product) (w : World) : World :=
  (productsAfterUpdateSuccessCreate env { record := p, next := chainEnd } w).1

/-- The world in which the removing product hook hands control to `e.Next()`. -/
def afterLowStockRemove (env : Env) (p : Product) (w : World) : World :=
  (productsAfterUpdateSuccessRemove env { record := p, next := chainEnd } w).1

/-- The world after both product hooks have run for one update. -/
def afterProductUpdate (envC envR : Env) (p : Product) (w : World) : World :=
  (productsAfterUpdateSuccess envC envR { record := p, next := chainEnd } w).1

/-- The low stock notification the creating hook saves for a product. -/
def lowStockRecord (id : String) (productId : String) : Record :=
  { id := id, type := "low_stock", order := "", product := productId, read := false }

/-- The notification the order hook saves for an order. -/
def newOrderRecord (id : String) (orderId : String) : Record :=
  { id := id, type := "new_order", order := orderId, product := "", read := false }

/-- Whether a row is a low stock notification of the given product. -/
def isLowStockFor (productId : String) (r : Record) : Bool :=
  r.type == "low_stock" && r.product == productId

/-- The number of low stock notifications of a product among the rows. -/
def lowStockCount (productId : String) (rs : List Record) : Nat :=
  rs.countP (isLowStockFor productId)

/-- At most one low stock notification per product. -/
def AtMostOneLowStock (rs : List Record) : Prop :=
  ∀ productId : String, lowStockCount productId rs ≤ 1

/-- The lookup both product hooks issue for a product. -/
def lookupCall (productId : String) : Call :=
  Call.findFirst "notifications" { type := "low_stock", product := productId }

/-- The collection resolution the creating hooks issue. -/
def collectionCall : Call := Call.findCollection "notifications"

/-- The store calls issued between two worlds of one run. -/
def callsIssued (before after : World) : List Call :=
  after.calls.drop before.calls.length

/-- The pair `(existing, err)` both product hooks get back from their lookup
of a low stock notification of the product. -/
def lookupResult (env : Env) (p : Product) (w : World) : Option Record × Option Err :=
  (findFirstRecordByFilter env "notifications" { type := "low_stock", product := p.id } w).2

/-- Whether a row is a new order notification of the given order. -/
def isNewOrderFor (orderId : String) (r : Record) : Bool :=
  r.type == "new_order" && r.order == orderId

/-- The number of new order notifications of an order among the rows. -/
def newOrderCount (orderId : String) (rs : List Record) : Nat :=
  rs.countP (isNewOrderFor orderId)

/-- The world after the order hook has run once for every element of `envs`,
each time for the same order, one run after the other. -/
def afterOrderCreates (envs : List Env) (o : Order) (w : World) : World :=
  envs.foldl (fun v env => afterOrderCreate env o v) w

/-- The condition under which the creating product hook acts
(main.go line 62): `currentStock <= reorderLevel && currentStock > 0`. -/
def createCondition (currentStock reorderLevel : Int) : Prop :=
  currentStock ≤ reorderLevel ∧ currentStock > 0

instance (currentStock reorderLevel : Int) :
    Decidable (createCondition currentStock reorderLevel) :=
  inferInstanceAs (Decidable (currentStock ≤ reorderLevel ∧ currentStock > 0))

/-- The condition under which the removing product hook acts
(main.go line 107): `currentStock > reorderLevel`. -/
def removeCondition (currentStock reorderLevel : Int) : Prop :=
  currentStock > reorderLevel

instance (currentStock reorderLevel : Int) :
    Decidable (removeCondition currentStock reorderLevel) :=
  inferInstanceAs (Decidable (currentStock > reorderLevel))

/-- The hook chain of a `products` update with the two hooks bound in the
other order: the removing hook first, the creating hook reached through its
`e.Next()`.  Not the order of `main`; used to compare the two orders. -/
def productsAfterUpdateSuccessSwapped (envC envR : Env) (e : RecordEvent Product)
    (w : World) : World × Option Err :=
  productsAfterUpdateSuccessRemove envR
    { e with next := fun w1 => productsAfterUpdateSuccessCreate envC e w1 } w

/-- The world after both product hooks have run in the swapped order. -/
def afterProductUpdateSwapped (envC envR : Env) (p : Product) (w : World) : World :=
  (productsAfterUpdateSuccessSwapped envC envR { record := p, next := chainEnd } w).1

/-- Record ids are primary keys: no two rows of the collection share an id. -/
def DistinctIds (rs : List Record) : Prop :=
  (rs.map Record.id).Nodup

instance (rs : List Record) : Decidable (DistinctIds rs) :=
  inferInstanceAs (Decidable (rs.map Record.id).Nodup)

/-- Whether the rows hold a low stock notification of the product. -/
def hasLowStock (productId : String) (rs : List Record) : Bool :=
  rs.any (isLowStockFor productId)

/-- One update of a product as the hooks see it: the updated record and the
outcomes of the store calls during the creating and the removing hook. -/
structure ProductUpdate where
  envC : Env
  envR : Env
  product : Product
  deriving DecidableEq, Repr

/-- All store calls the two product hooks can issue during the update succeed:
the lookups return without a failed query, the collection resolves, the save
and the delete go through. -/
def ProductUpdate.succeeds (u : ProductUpdate) : Prop :=
  u.envC.lookupErr = false ∧ u.envC.collectionErr = false ∧ u.envC.saveErr = false
    ∧ u.envR.lookupErr = false ∧ u.envR.deleteErr = false

instance (u : ProductUpdate) : Decidable u.succeeds :=
  inferInstanceAs (Decidable (u.envC.lookupErr = false ∧ u.envC.collectionErr = false
    ∧ u.envC.saveErr = false ∧ u.envR.lookupErr = false ∧ u.envR.deleteErr = false))

/-- The world after a sequence of product updates, handled one at a time. -/
def runUpdates (us : List ProductUpdate) (w : World) : World :=
  us.foldl (fun v u => afterProductUpdate u.envC u.envR u.product v) w

/-- The two-state machine of the specification (section 4.3), written from its
words and not from the code: the state says whether the notification exists;
stock in `(0, reorderLevel]` leads to notification-exists, stock above
`reorderLevel` leads to no-notification, every other update keeps the state. -/
def specMachineStep (notificationExists : Bool) (p : Product) : Bool :=
  if 0 < p.stockQuantity ∧ p.stockQuantity ≤ p.reorderLevel then true
  else if p.stockQuantity > p.reorderLevel then false
  else notificationExists

/-- The fold of the two-state machine of the specification over a sequence of
updates. -/
def specMachineRun (start : Bool) (us : List ProductUpdate) : Bool :=
  us.foldl (fun s u => specMachineStep s u.product) start

/-- The end-to-end scenario of the specification (section 8, item 6): product
`P` with reorder level 10 and no notification is updated to stock 8, 5, 20 and
0, every store call succeeding. -/
def scenarioUpdates : List ProductUpdate :=
  [ { envC := ⟨false, false, false, false, "n1"⟩, envR := ⟨false, false, false, false, "r1"⟩,
      product := ⟨"P", 8, 10⟩ },
    { envC := ⟨false, false, false, false, "n2"⟩, envR := ⟨false, false, false, false, "r2"⟩,
      product := ⟨"P", 5, 10⟩ },
    { envC := ⟨false, false, false, false, "n3"⟩, envR := ⟨false, false, false, false, "r3"⟩,
      product := ⟨"P", 20, 10⟩ },
    { envC := ⟨false, false, false, false, "n4"⟩, envR := ⟨false, false, false, false, "r4"⟩,
      product := ⟨"P", 0, 10⟩ } ]

/-! ## Basic facts about the store model -/

theorem filter_holds_lowStock (productId : String) (r : Record) :
    Filter.holds { type := "low_stock", product := productId } r = isLowStockFor productId r := rfl

theorem isLowStockFor_iff (productId : String) (r : Record) :
    isLowStockFor productId r = true ↔ r.type = "low_stock" ∧ r.product = productId := by
  simp [isLowStockFor]

theorem find_lowStock_none (productId : String) (rs : List Record)
    (h : ∀ r ∈ rs, ¬ (r.type = "low_stock" ∧ r.product = productId)) :
    rs.find? (Filter.holds { type := "low_stock", product := productId }) = none := by
  rw [List.find?_eq_none]
  intro r hr
  have := h r hr
  simpa [Filter.holds] using this

theorem callsIssued_append (w : World) (ns : List Record) (cs : List Call) :
    callsIssued w { notifications := ns, calls := w.calls ++ cs } = cs := by
  simp [callsIssued]

/-! ## Every hook hands its world to `e.Next()` -/

theorem ordersAfterCreateSuccess_next (env : Env) (e : RecordEvent Order) (w : World) :
    ordersAfterCreateSuccess env e w = e.next (afterOrderCreate env e.record w) := by
  unfold afterOrderCreate ordersAfterCreateSuccess findCollectionByNameOrId save chainEnd
  cases env.collectionErr <;> cases env.saveErr <;> rfl

theorem create_next (env : Env) (e : RecordEvent Product) (w : World) :
    productsAfterUpdateSuccessCreate env e w = e.next (afterLowStockCreate env e.record w) := by
  unfold afterLowStockCreate productsAfterUpdateSuccessCreate findFirstRecordByFilter
    findCollectionByNameOrId save chainEnd
  by_cases h : e.record.stockQuantity ≤ e.record.reorderLevel ∧ e.record.stockQuantity > 0
  · simp only [h, and_self, if_true]
    cases env.lookupErr <;> cases env.collectionErr <;> cases env.saveErr <;>
      cases hf : List.find? (Filter.holds { type := "low_stock", product := e.record.id })
        w.notifications <;> simp [hf]
  · simp only [h, if_false]

theorem remove_next (env : Env) (e : RecordEvent Product) (w : World) :
    productsAfterUpdateSuccessRemove env e w = e.next (afterLowStockRemove env e.record w) := by
  unfold afterLowStockRemove productsAfterUpdateSuccessRemove findFirstRecordByFilter
    delete chainEnd
  by_cases h : e.record.stockQuantity > e.record.reorderLevel
  · simp only [h, if_true]
    cases env.lookupErr <;> cases env.deleteErr <;>
      cases hf : List.find? (Filter.holds { type := "low_stock", product := e.record.id })
        w.notifications <;> simp [hf]
  · simp only [h, if_false]

theorem chain_next (envC envR : Env) (e : RecordEvent Product) (w : World) :
    productsAfterUpdateSuccess envC envR e w =
      e.next (afterLowStockRemove envR e.record (afterLowStockCreate envC e.record w)) := by
  unfold productsAfterUpdateSuccess
  rw [create_next]
  exact remove_next envR e _

theorem afterProductUpdate_eq (envC envR : Env) (p : Product) (w : World) :
    afterProductUpdate envC envR p w =
      afterLowStockRemove envR p (afterLowStockCreate envC p w) := by
  unfold afterProductUpdate
  rw [chain_next]
  rfl

/-! ## The branches of the order hook -/

theorem order_collectionErr (env : Env) (o : Order) (w : World) (h : env.collectionErr = true) :
    afterOrderCreate env o w = { w with calls := w.calls ++ [collectionCall] } := by
  simp [afterOrderCreate, ordersAfterCreateSuccess, findCollectionByNameOrId, chainEnd, h,
    collectionCall]

theorem order_saveErr (env : Env) (o : Order) (w : World) (hc : env.collectionErr = false)
    (hs : env.saveErr = true) :
    afterOrderCreate env o w =
      { w with calls := w.calls ++ [collectionCall, Call.save (newOrderRecord "" o.id)] } := by
  simp [afterOrderCreate, ordersAfterCreateSuccess, findCollectionByNameOrId, chainEnd, hc, hs,
    collectionCall, save, newRecord, newOrderRecord]

theorem order_saved (env : Env) (o : Order) (w : World) (hc : env.collectionErr = false)
    (hs : env.saveErr = false) :
    afterOrderCreate env o w =
      { notifications := w.notifications ++ [newOrderRecord env.newId o.id],
        calls := w.calls ++ [collectionCall, Call.save (newOrderRecord "" o.id)] } := by
  simp [afterOrderCreate, ordersAfterCreateSuccess, findCollectionByNameOrId, chainEnd, hc, hs,
    collectionCall, save, newRecord, newOrderRecord]

/-! ## The branches of the creating product hook -/

theorem create_idle (env : Env) (p : Product) (w : World)
    (h : ¬ (p.stockQuantity ≤ p.reorderLevel ∧ p.stockQuantity > 0)) :
    afterLowStockCreate env p w = w := by
  simp only [afterLowStockCreate, productsAfterUpdateSuccessCreate, h, if_false, chainEnd]

theorem create_found (env : Env) (p : Product) (w : World) (r : Record)
    (h : p.stockQuantity ≤ p.reorderLevel ∧ p.stockQuantity > 0)
    (hl : env.lookupErr = false)
    (hf : w.notifications.find? (Filter.holds { type := "low_stock", product := p.id }) = some r) :
    afterLowStockCreate env p w = { w with calls := w.calls ++ [lookupCall p.id] } := by
  simp [afterLowStockCreate, productsAfterUpdateSuccessCreate, h, chainEnd,
    findFirstRecordByFilter, hl, hf, lookupCall]

theorem create_collectionErr (env : Env) (p : Product) (w : World)
    (h : p.stockQuantity ≤ p.reorderLevel ∧ p.stockQuantity > 0)
    (hf : env.lookupErr = true ∨
      w.notifications.find? (Filter.holds { type := "low_stock", product := p.id }) = none)
    (hc : env.collectionErr = true) :
    afterLowStockCreate env p w =
      { w with calls := w.calls ++ [lookupCall p.id, collectionCall] } := by
  rcases hf with hf | hf <;>
  simp [afterLowStockCreate, productsAfterUpdateSuccessCreate, h, chainEnd,
    findFirstRecordByFilter, hf, hc, lookupCall, collectionCall, findCollectionByNameOrId]
  cases env.lookupErr <;> simp

theorem create_saveErr (env : Env) (p : Product) (w : World)
    (h : p.stockQuantity ≤ p.reorderLevel ∧ p.stockQuantity > 0)
    (hf : env.lookupErr = true ∨
      w.notifications.find? (Filter.holds { type := "low_stock", product := p.id }) = none)
    (hc : env.collectionErr = false) (hs : env.saveErr = true) :
    afterLowStockCreate env p w =
      { w with calls := w.calls ++
          [lookupCall p.id, collectionCall, Call.save (lowStockRecord "" p.id)] } := by
  rcases hf with hf | hf <;>
  simp [afterLowStockCreate, productsAfterUpdateSuccessCreate, h, chainEnd,
    findFirstRecordByFilter, hf, hc, hs, lookupCall, collectionCall, findCollectionByNameOrId,
    save, newRecord, lowStockRecord]
  cases env.lookupErr <;> simp

theorem create_saved (env : Env) (p : Product) (w : World)
    (h : p.stockQuantity ≤ p.reorderLevel ∧ p.stockQuantity > 0)
    (hf : env.lookupErr = true ∨
      w.notifications.find? (Filter.holds { type := "low_stock", product := p.id }) = none)
    (hc : env.collectionErr = false) (hs : env.saveErr = false) :
    afterLowStockCreate env p w =
      { notifications := w.notifications ++ [lowStockRecord env.newId p.id],
        calls := w.calls ++
          [lookupCall p.id, collectionCall, Call.save (lowStockRecord "" p.id)] } := by
  rcases hf with hf | hf <;>
  simp [afterLowStockCreate, productsAfterUpdateSuccessCreate, h, chainEnd,
    findFirstRecordByFilter, hf, hc, hs, lookupCall, collectionCall, findCollectionByNameOrId,
    save, newRecord, lowStockRecord]
  cases env.lookupErr <;> simp

/-! ## The branches of the removing product hook -/

theorem remove_idle (env : Env) (p : Product) (w : World)
    (h : ¬ (p.stockQuantity > p.reorderLevel)) :
    afterLowStockRemove env p w = w := by
  simp only [afterLowStockRemove, productsAfterUpdateSuccessRemove, h, if_false, chainEnd]

theorem remove_miss (env : Env) (p : Product) (w : World)
    (h : p.stockQuantity > p.reorderLevel)
    (hf : env.lookupErr = true ∨
      w.notifications.find? (Filter.holds { type := "low_stock", product := p.id }) = none) :
    afterLowStockRemove env p w = { w with calls := w.calls ++ [lookupCall p.id] } := by
  rcases hf with hf | hf <;>
  simp [afterLowStockRemove, productsAfterUpdateSuccessRemove, h, chainEnd,
    findFirstRecordByFilter, hf, lookupCall]
  cases env.lookupErr <;> simp

theorem remove_deleteErr (env : Env) (p : Product) (w : World) (r : Record)
    (h : p.stockQuantity > p.reorderLevel) (hl : env.lookupErr = false)
    (hf : w.notifications.find? (Filter.holds { type := "low_stock", product := p.id }) = some r)
    (hd : env.deleteErr = true) :
    afterLowStockRemove env p w =
      { w with calls := w.calls ++ [lookupCall p.id, Call.delete r] } := by
  simp [afterLowStockRemove, productsAfterUpdateSuccessRemove, h, chainEnd,
    findFirstRecordByFilter, hl, hf, hd, lookupCall, delete]

theorem remove_deleted (env : Env) (p : Product) (w : World) (r : Record)
    (h : p.stockQuantity > p.reorderLevel) (hl : env.lookupErr = false)
    (hf : w.notifications.find? (Filter.holds { type := "low_stock", product := p.id }) = some r)
    (hd : env.deleteErr = false) :
    afterLowStockRemove env p w =
      { notifications := w.notifications.filter (fun x => x.id != r.id),
        calls := w.calls ++ [lookupCall p.id, Call.delete r] } := by
  simp [afterLowStockRemove, productsAfterUpdateSuccessRemove, h, chainEnd,
    findFirstRecordByFilter, hl, hf, hd, lookupCall, delete]

/-! ## Counting low stock notifications -/

theorem lowStockCount_append (productId : String) (rs : List Record) (r : Record) :
    lowStockCount productId (rs ++ [r]) =
      lowStockCount productId rs + (if isLowStockFor productId r then 1 else 0) := by
  simp [lowStockCount, List.countP_append, List.countP_cons]

theorem lowStockCount_filter_le (productId : String) (rs : List Record) (q : Record → Bool) :
    lowStockCount productId (rs.filter q) ≤ lowStockCount productId rs :=
  List.Sublist.countP_le _ (List.filter_sublist rs)

theorem lowStockCount_zero_of_find_none (productId : String) (rs : List Record)
    (h : rs.find? (Filter.holds { type := "low_stock", product := productId }) = none) :
    lowStockCount productId rs = 0 := by
  rw [List.find?_eq_none] at h
  unfold lowStockCount
  rw [List.countP_eq_zero]
  intro r hr
  have := h r hr
  simpa [filter_holds_lowStock] using this

theorem lowStockCount_zero_of_none (productId : String) (rs : List Record)
    (h : ∀ r ∈ rs, ¬ (r.type = "low_stock" ∧ r.product = productId)) :
    lowStockCount productId rs = 0 :=
  lowStockCount_zero_of_find_none productId rs (find_lowStock_none productId rs h)

theorem isLowStockFor_lowStockRecord (productId other id : String) :
    isLowStockFor other (lowStockRecord id productId) = (productId == other) := by
  simp [isLowStockFor, lowStockRecord]

theorem isLowStockFor_newOrderRecord (other id orderId : String) :
    isLowStockFor other (newOrderRecord id orderId) = false := by
  simp [isLowStockFor, newOrderRecord]

/-! ## The claims -/

/-- C1. Low stock creation rule: when the store holds no notification with
type `low_stock` for product `p`, an update of `p` with
`0 < stockQuantity ≤ reorderLevel`, the notifications collection resolvable
and the save succeeding, adds exactly one notification to the store, namely one
of type `low_stock` with product `p.id`; this holds for the creating hook alone
and for the whole hook chain of the update, and afterwards the store holds
exactly one low stock notification of `p`. -/
theorem low_stock_created (envC envR : Env) (p : Product) (w : World)
    (hnone : ∀ r ∈ w.notifications, ¬ (r.type = "low_stock" ∧ r.product = p.id))
    (hband : 0 < p.stockQuantity ∧ p.stockQuantity ≤ p.reorderLevel)
    (hcoll : envC.collectionErr = false) (hsave : envC.saveErr = false) :
    (afterLowStockCreate envC p w).notifications =
        w.notifications ++ [lowStockRecord envC.newId p.id]
    ∧ (afterProductUpdate envC envR p w).notifications =
        w.notifications ++ [lowStockRecord envC.newId p.id]
    ∧ (lowStockRecord envC.newId p.id).type = "low_stock"
    ∧ (lowStockRecord envC.newId p.id).product = p.id
    ∧ lowStockCount p.id (afterProductUpdate envC envR p w).notifications = 1 := by
  have hb : p.stockQuantity ≤ p.reorderLevel ∧ p.stockQuantity > 0 := ⟨hband.2, hband.1⟩
  have hc := create_saved envC p w hb (Or.inr (find_lowStock_none p.id _ hnone)) hcoll hsave
  have hr : ¬ (p.stockQuantity > p.reorderLevel) := not_lt.mpr hband.2
  have hu : (afterProductUpdate envC envR p w).notifications =
      w.notifications ++ [lowStockRecord envC.newId p.id] := by
    rw [afterProductUpdate_eq, remove_idle envR p _ hr, hc]
  refine ⟨by rw [hc], hu, rfl, rfl, ?_⟩
  rw [hu, lowStockCount_append, lowStockCount_zero_of_none p.id _ hnone,
    isLowStockFor_lowStockRecord]
  simp

/-- Witness of C1: product `p1` with stock 8 and reorder level 10 on an empty
store. -/
theorem low_stock_created_witness :
    (afterProductUpdate ⟨false, false, false, false, "n1"⟩ ⟨false, false, false, false, "n2"⟩
        ⟨"p1", 8, 10⟩ ⟨[], []⟩).notifications = [lowStockRecord "n1" "p1"] :=
  (low_stock_created ⟨false, false, false, false, "n1"⟩ ⟨false, false, false, false, "n2"⟩
    ⟨"p1", 8, 10⟩ ⟨[], []⟩ (by simp) (by decide) rfl rfl).2.1

theorem find_lowStock_some (productId : String) (rs : List Record)
    (h : ∃ r ∈ rs, r.type = "low_stock" ∧ r.product = productId) :
    ∃ r, rs.find? (Filter.holds { type := "low_stock", product := productId }) = some r := by
  cases hf : rs.find? (Filter.holds { type := "low_stock", product := productId }) with
  | some r => exact ⟨r, rfl⟩
  | none =>
    rw [List.find?_eq_none] at hf
    obtain ⟨r, hr, ht, hp⟩ := h
    have := hf r hr
    simp [Filter.holds, ht, hp] at this

/-- C2, as stated, fails: with a low stock notification of `p1` in the store,
an update of `p1` with stock 8 and reorder level 10 during which the existence
lookup returns an error (its error is discarded by the hook and the record is
nil) saves a second notification. -/
theorem low_stock_idempotent_fails :
    ¬ ∀ (envC envR : Env) (p : Product) (w : World),
        (∃ r ∈ w.notifications, r.type = "low_stock" ∧ r.product = p.id) →
        0 < p.stockQuantity ∧ p.stockQuantity ≤ p.reorderLevel →
        (afterProductUpdate envC envR p w).notifications = w.notifications := by
  intro h
  have h1 := h ⟨false, true, false, false, "n2"⟩ ⟨false, false, false, false, "n3"⟩
    ⟨"p1", 8, 10⟩ ⟨[lowStockRecord "n1" "p1"], []⟩
    ⟨lowStockRecord "n1" "p1", by simp, rfl, rfl⟩ (by decide)
  revert h1
  decide

/-- C2, amended. Idempotence of low stock creation when the existence lookup
does not fail: if the store already holds a low stock notification of `p`, an
update of `p` with `0 < stockQuantity ≤ reorderLevel` whose lookup returns
without error leaves the store unchanged and issues the lookup as its only
store call; and when the store already holds such a notification, or the first
update resolves the collection and saves successfully, a second such update
(same product id, in band, lookup not failing) yields the same store as the
first alone. -/
theorem low_stock_idempotent (envC envR envC2 envR2 : Env) (p p2 : Product) (w : World)
    (hband : 0 < p.stockQuantity ∧ p.stockQuantity ≤ p.reorderLevel)
    (hlook : envC.lookupErr = false)
    (hid : p2.id = p.id)
    (hband2 : 0 < p2.stockQuantity ∧ p2.stockQuantity ≤ p2.reorderLevel)
    (hlook2 : envC2.lookupErr = false) :
    ((∃ r ∈ w.notifications, r.type = "low_stock" ∧ r.product = p.id) →
        (afterProductUpdate envC envR p w).notifications = w.notifications
        ∧ callsIssued w (afterProductUpdate envC envR p w) = [lookupCall p.id])
    ∧ ((∃ r ∈ w.notifications, r.type = "low_stock" ∧ r.product = p.id)
          ∨ (envC.collectionErr = false ∧ envC.saveErr = false) →
        (afterProductUpdate envC2 envR2 p2 (afterProductUpdate envC envR p w)).notifications =
          (afterProductUpdate envC envR p w).notifications) := by
  have key : ∀ (eC eR : Env) (q : Product) (v : World),
      0 < q.stockQuantity ∧ q.stockQuantity ≤ q.reorderLevel → eC.lookupErr = false →
      (∃ r ∈ v.notifications, r.type = "low_stock" ∧ r.product = q.id) →
      afterProductUpdate eC eR q v = { v with calls := v.calls ++ [lookupCall q.id] } := by
    intro eC eR q v hb hl hex
    obtain ⟨r, hr⟩ := find_lowStock_some q.id v.notifications hex
    rw [afterProductUpdate_eq, remove_idle eR q _ (not_lt.mpr hb.2),
      create_found eC q v r ⟨hb.2, hb.1⟩ hl hr]
  refine ⟨?_, ?_⟩
  · intro hex
    rw [key envC envR p w hband hlook hex]
    exact ⟨rfl, callsIssued_append w _ _⟩
  · intro h
    have hex1 : ∃ r ∈ (afterProductUpdate envC envR p w).notifications,
        r.type = "low_stock" ∧ r.product = p2.id := by
      rw [hid]
      by_cases hex : ∃ r ∈ w.notifications, r.type = "low_stock" ∧ r.product = p.id
      · rw [key envC envR p w hband hlook hex]
        exact hex
      · rcases h with h | ⟨hc, hs⟩
        · exact absurd h hex
        · have hnone : ∀ r ∈ w.notifications, ¬ (r.type = "low_stock" ∧ r.product = p.id) :=
            fun r hr hp => hex ⟨r, hr, hp⟩
          rw [afterProductUpdate_eq, remove_idle envR p _ (not_lt.mpr hband.2),
            create_saved envC p w ⟨hband.2, hband.1⟩
              (Or.inr (find_lowStock_none p.id _ hnone)) hc hs]
          exact ⟨lowStockRecord envC.newId p.id, by simp, rfl, rfl⟩
    rw [key envC2 envR2 p2 _ hband2 hlook2 hex1]

/-- Witness of C2 (amended): product `p1`, stock 8 then 5, reorder level 10,
on a store that already holds the notification. -/
theorem low_stock_idempotent_witness :
    (afterProductUpdate ⟨false, false, false, false, "n2"⟩ ⟨false, false, false, false, "n3"⟩
        ⟨"p1", 8, 10⟩ ⟨[lowStockRecord "n1" "p1"], []⟩).notifications =
      [lowStockRecord "n1" "p1"] :=
  ((low_stock_idempotent ⟨false, false, false, false, "n2"⟩ ⟨false, false, false, false, "n3"⟩
    ⟨false, false, false, false, "n4"⟩ ⟨false, false, false, false, "n5"⟩
    ⟨"p1", 8, 10⟩ ⟨"p1", 5, 10⟩ ⟨[lowStockRecord "n1" "p1"], []⟩
    (by decide) rfl rfl (by decide) rfl).1 ⟨lowStockRecord "n1" "p1", by simp, rfl, rfl⟩).1

/-- C3, evaluated where it fails. Two in-band updates of `p1`, the second with
a failing lookup, leave two low stock notifications of `p1`; the following
update with stock 20 above reorder level 10, lookup and delete succeeding,
deletes only the first row found and one low stock notification of `p1`
remains. -/
theorem low_stock_remove_leaves_duplicate :
    (afterProductUpdate ⟨false, true, false, false, "n2"⟩ ⟨false, false, false, false, "x"⟩
        ⟨"p1", 5, 10⟩
        (afterProductUpdate ⟨false, false, false, false, "n1"⟩ ⟨false, false, false, false, "x"⟩
          ⟨"p1", 8, 10⟩ ⟨[], []⟩)).notifications =
      [lowStockRecord "n1" "p1", lowStockRecord "n2" "p1"]
    ∧ (afterProductUpdate ⟨false, false, false, false, "x"⟩ ⟨false, false, false, false, "x"⟩
        ⟨"p1", 20, 10⟩ ⟨[lowStockRecord "n1" "p1", lowStockRecord "n2" "p1"], []⟩).notifications =
      [lowStockRecord "n2" "p1"]
    ∧ lowStockCount "p1"
        (afterProductUpdate ⟨false, false, false, false, "x"⟩ ⟨false, false, false, false, "x"⟩
          ⟨"p1", 20, 10⟩
          ⟨[lowStockRecord "n1" "p1", lowStockRecord "n2" "p1"], []⟩).notifications = 1 := by
  decide

/-- C4. Zero stock boundary: an update with `stockQuantity = 0` and a
non-negative `reorderLevel` fires neither product hook: whatever the store
outcomes and the prior store, the chain of both hooks issues no store call,
leaves the notifications unchanged and passes the world on to the rest of the
chain as it received it. -/
theorem zero_stock_noop (envC envR : Env) (p : Product) (w : World)
    (hzero : p.stockQuantity = 0) (hre : 0 ≤ p.reorderLevel) :
    afterProductUpdate envC envR p w = w
    ∧ (afterProductUpdate envC envR p w).notifications = w.notifications
    ∧ ∀ next, productsAfterUpdateSuccess envC envR { record := p, next := next } w = next w := by
  have hc : ¬ (p.stockQuantity ≤ p.reorderLevel ∧ p.stockQuantity > 0) := by
    rw [hzero]; simp
  have hr : ¬ (p.stockQuantity > p.reorderLevel) := by
    rw [hzero]; exact not_lt.mpr hre
  have hw : afterProductUpdate envC envR p w = w := by
    rw [afterProductUpdate_eq, create_idle envC p w hc, remove_idle envR p w hr]
  refine ⟨hw, by rw [hw], ?_⟩
  intro next
  rw [chain_next]
  show next (afterLowStockRemove envR p (afterLowStockCreate envC p w)) = next w
  rw [create_idle envC p w hc, remove_idle envR p w hr]

/-- Witness of C4: stock 0, reorder level 10, on a store holding a low stock
notification of the product. -/
theorem zero_stock_noop_witness :
    afterProductUpdate ⟨false, false, false, false, "n2"⟩ ⟨false, false, false, false, "n3"⟩
        ⟨"p1", 0, 10⟩ ⟨[lowStockRecord "n1" "p1"], []⟩ = ⟨[lowStockRecord "n1" "p1"], []⟩ :=
  (zero_stock_noop ⟨false, false, false, false, "n2"⟩ ⟨false, false, false, false, "n3"⟩
    ⟨"p1", 0, 10⟩ ⟨[lowStockRecord "n1" "p1"], []⟩ rfl (by decide)).1

/-! ## What a hook can do to the rows -/

theorem order_rows (env : Env) (o : Order) (w : World) :
    (afterOrderCreate env o w).notifications = w.notifications
    ∨ (afterOrderCreate env o w).notifications =
        w.notifications ++ [newOrderRecord env.newId o.id] := by
  cases hc : env.collectionErr
  · cases hs : env.saveErr
    · right; rw [order_saved env o w hc hs]
    · left; rw [order_saveErr env o w hc hs]
  · left; rw [order_collectionErr env o w hc]

theorem create_rows (env : Env) (p : Product) (w : World) :
    (afterLowStockCreate env p w).notifications = w.notifications
    ∨ ((env.lookupErr = true ∨
          w.notifications.find? (Filter.holds { type := "low_stock", product := p.id }) = none)
        ∧ (afterLowStockCreate env p w).notifications =
            w.notifications ++ [lowStockRecord env.newId p.id]) := by
  by_cases h : p.stockQuantity ≤ p.reorderLevel ∧ p.stockQuantity > 0
  · by_cases hf : env.lookupErr = true ∨
        w.notifications.find? (Filter.holds { type := "low_stock", product := p.id }) = none
    · cases hc : env.collectionErr
      · cases hs : env.saveErr
        · right; exact ⟨hf, by rw [create_saved env p w h hf hc hs]⟩
        · left; rw [create_saveErr env p w h hf hc hs]
      · left; rw [create_collectionErr env p w h hf hc]
    · have hl : env.lookupErr = false := by
        cases hl : env.lookupErr
        · rfl
        · exact absurd (Or.inl hl) hf
      cases hr : w.notifications.find? (Filter.holds { type := "low_stock", product := p.id })
      · exact absurd (Or.inr hr) hf
      · left; rw [create_found env p w _ h hl hr]
  · left; rw [create_idle env p w h]

theorem remove_rows (env : Env) (p : Product) (w : World) :
    (afterLowStockRemove env p w).notifications = w.notifications
    ∨ ∃ r, w.notifications.find? (Filter.holds { type := "low_stock", product := p.id }) = some r
        ∧ (afterLowStockRemove env p w).notifications =
            w.notifications.filter (fun x => x.id != r.id) := by
  by_cases h : p.stockQuantity > p.reorderLevel
  · cases hl : env.lookupErr
    · cases hr : w.notifications.find? (Filter.holds { type := "low_stock", product := p.id })
      · left; rw [remove_miss env p w h (Or.inr hr)]
      · cases hd : env.deleteErr
        · right; exact ⟨_, rfl, by rw [remove_deleted env p w _ h hl hr hd]⟩
        · left; rw [remove_deleteErr env p w _ h hl hr hd]
    · left; rw [remove_miss env p w h (Or.inl hl)]
  · left; rw [remove_idle env p w h]

theorem remove_count_le (env : Env) (p : Product) (w : World) (productId : String) :
    lowStockCount productId (afterLowStockRemove env p w).notifications ≤
      lowStockCount productId w.notifications := by
  rcases remove_rows env p w with h | ⟨r, _, h⟩
  · rw [h]
  · rw [h]; exact lowStockCount_filter_le _ _ _

theorem atMostOne_singleton (r : Record) : AtMostOneLowStock [r] := by
  intro productId
  exact List.countP_le_length _

/-- C5, as stated, fails: the store holds one low stock notification of `p7`;
during an update of `p7` with stock 3 and reorder level 5 the existence lookup
returns an error, the hook takes the nil record for "no notification yet" and
saves a second one. -/
theorem at_most_one_fails :
    ¬ ∀ (envC envR : Env) (p : Product) (w : World),
        AtMostOneLowStock w.notifications →
        AtMostOneLowStock (afterProductUpdate envC envR p w).notifications := by
  intro h
  have h1 := h ⟨false, true, false, false, "b"⟩ ⟨false, false, false, false, "c"⟩
    ⟨"p7", 3, 5⟩ ⟨[lowStockRecord "a" "p7"], []⟩ (atMostOne_singleton _) "p7"
  revert h1
  decide

/-- C5, amended. At most one low stock notification per product is preserved
by the order hook for every outcome of its store calls, and by the two product
hooks run for one update for every outcome of their store calls in which the
existence lookup of the creating hook does not fail while the store holds a
low stock notification of the updated product. -/
theorem at_most_one_preserved (w : World) (hinv : AtMostOneLowStock w.notifications) :
    (∀ (env : Env) (o : Order), AtMostOneLowStock (afterOrderCreate env o w).notifications)
    ∧ (∀ (envC envR : Env) (p : Product),
        (envC.lookupErr = false ∨ lowStockCount p.id w.notifications = 0) →
        AtMostOneLowStock (afterProductUpdate envC envR p w).notifications) := by
  refine ⟨?_, ?_⟩
  · intro env o productId
    rcases order_rows env o w with h | h
    · rw [h]; exact hinv productId
    · rw [h, lowStockCount_append, isLowStockFor_newOrderRecord]
      simpa using hinv productId
  · intro envC envR p hlook productId
    rw [afterProductUpdate_eq]
    refine le_trans (remove_count_le envR p _ productId) ?_
    rcases create_rows envC p w with h | ⟨hf, h⟩
    · rw [h]; exact hinv productId
    · have hzero : lowStockCount p.id w.notifications = 0 := by
        rcases hlook with hl | hz
        · rcases hf with hf | hf
          · rw [hl] at hf; exact absurd hf (by decide)
          · exact lowStockCount_zero_of_find_none p.id _ hf
        · exact hz
      rw [h, lowStockCount_append, isLowStockFor_lowStockRecord]
      by_cases hp : p.id = productId
      · subst hp
        simp [hzero]
      · have hne : (p.id == productId) = false := by simpa using hp
        rw [hne]
        simpa using hinv productId

/-- Witness of C5 (amended): a store holding one low stock notification of
`p7`. -/
theorem at_most_one_preserved_witness :
    AtMostOneLowStock
      (afterProductUpdate ⟨false, false, false, false, "b"⟩ ⟨false, false, false, false, "c"⟩
        ⟨"p7", 3, 5⟩ ⟨[lowStockRecord "a" "p7"], []⟩).notifications :=
  (at_most_one_preserved ⟨[lowStockRecord "a" "p7"], []⟩ (atMostOne_singleton _)).2
    ⟨false, false, false, false, "b"⟩ ⟨false, false, false, false, "c"⟩ ⟨"p7", 3, 5⟩
    (Or.inl rfl)

/-- C6. New order rule: with the notifications collection resolvable and the
save succeeding, the order hook appends exactly one notification to the store,
of type `new_order` with `order` the id of the created order, and keeps every
existing row as it was; its store calls are one collection resolution and one
save, and no lookup. -/
theorem new_order_created (env : Env) (o : Order) (w : World)
    (hcoll : env.collectionErr = false) (hsave : env.saveErr = false) :
    (afterOrderCreate env o w).notifications =
        w.notifications ++ [newOrderRecord env.newId o.id]
    ∧ (newOrderRecord env.newId o.id).type = "new_order"
    ∧ (newOrderRecord env.newId o.id).order = o.id
    ∧ (afterOrderCreate env o w).notifications.length = w.notifications.length + 1
    ∧ callsIssued w (afterOrderCreate env o w) =
        [collectionCall, Call.save (newOrderRecord "" o.id)] := by
  rw [order_saved env o w hcoll hsave]
  exact ⟨rfl, rfl, rfl, by simp, callsIssued_append w _ _⟩

/-- Witness of C6: creating order `abc123` on an empty store leaves exactly
one notification, of type `new_order` for order `abc123`. -/
theorem new_order_created_witness :
    (afterOrderCreate ⟨false, false, false, false, "n1"⟩ ⟨"abc123"⟩ ⟨[], []⟩).notifications =
      [{ id := "n1", type := "new_order", order := "abc123", product := "", read := false }] :=
  (new_order_created ⟨false, false, false, false, "n1"⟩ ⟨"abc123"⟩ ⟨[], []⟩ rfl rfl).1

/-! ## The worlds a hook can end in -/

theorem create_worlds (env : Env) (p : Product) (w : World) :
    afterLowStockCreate env p w = w
    ∨ afterLowStockCreate env p w = { w with calls := w.calls ++ [lookupCall p.id] }
    ∨ (env.collectionErr = true ∧ afterLowStockCreate env p w =
        { w with calls := w.calls ++ [lookupCall p.id, collectionCall] })
    ∨ (env.saveErr = true ∧ afterLowStockCreate env p w =
        { w with calls := w.calls ++
            [lookupCall p.id, collectionCall, Call.save (lowStockRecord "" p.id)] })
    ∨ (env.collectionErr = false ∧ env.saveErr = false ∧ afterLowStockCreate env p w =
        { notifications := w.notifications ++ [lowStockRecord env.newId p.id],
          calls := w.calls ++
            [lookupCall p.id, collectionCall, Call.save (lowStockRecord "" p.id)] }) := by
  by_cases h : p.stockQuantity ≤ p.reorderLevel ∧ p.stockQuantity > 0
  · by_cases hf : env.lookupErr = true ∨
        w.notifications.find? (Filter.holds { type := "low_stock", product := p.id }) = none
    · cases hc : env.collectionErr
      · cases hs : env.saveErr
        · exact Or.inr (Or.inr (Or.inr (Or.inr ⟨rfl, rfl, create_saved env p w h hf hc hs⟩)))
        · exact Or.inr (Or.inr (Or.inr (Or.inl ⟨rfl, create_saveErr env p w h hf hc hs⟩)))
      · exact Or.inr (Or.inr (Or.inl ⟨rfl, create_collectionErr env p w h hf hc⟩))
    · have hl : env.lookupErr = false := by
        cases hl : env.lookupErr
        · rfl
        · exact absurd (Or.inl hl) hf
      cases hr : w.notifications.find? (Filter.holds { type := "low_stock", product := p.id })
      · exact absurd (Or.inr hr) hf
      · exact Or.inr (Or.inl (create_found env p w _ h hl hr))
  · exact Or.inl (create_idle env p w h)

theorem remove_worlds (env : Env) (p : Product) (w : World) :
    afterLowStockRemove env p w = w
    ∨ afterLowStockRemove env p w = { w with calls := w.calls ++ [lookupCall p.id] }
    ∨ (∃ r, env.deleteErr = true ∧ afterLowStockRemove env p w =
        { w with calls := w.calls ++ [lookupCall p.id, Call.delete r] })
    ∨ (∃ r, env.deleteErr = false ∧ afterLowStockRemove env p w =
        { notifications := w.notifications.filter (fun x => x.id != r.id),
          calls := w.calls ++ [lookupCall p.id, Call.delete r] }) := by
  by_cases h : p.stockQuantity > p.reorderLevel
  · cases hl : env.lookupErr
    · cases hr : w.notifications.find? (Filter.holds { type := "low_stock", product := p.id })
      · exact Or.inr (Or.inl (remove_miss env p w h (Or.inr hr)))
      · cases hd : env.deleteErr
        · exact Or.inr (Or.inr (Or.inr ⟨_, rfl, remove_deleted env p w _ h hl hr hd⟩))
        · exact Or.inr (Or.inr (Or.inl ⟨_, rfl, remove_deleteErr env p w _ h hl hr hd⟩))
    · exact Or.inr (Or.inl (remove_miss env p w h (Or.inl hl)))
  · exact Or.inl (remove_idle env p w h)

theorem callsIssued_self (w : World) : callsIssued w w = [] := by
  simp [callsIssued]

/-- C7. Best effort continuation: for each of the three hooks and every
outcome of the store calls there is one world, not depending on the rest of
the chain, such that the hook returns exactly what `e.Next()` returns on that
world, so the continuation is called once and its result is the result of the
hook; in particular a hook at the end of the chain returns no error, whatever
its own store calls returned. -/
theorem hooks_always_continue :
    (∀ (env : Env) (o : Order) (w : World), ∃ w1 : World, ∀ next,
        ordersAfterCreateSuccess env { record := o, next := next } w = next w1)
    ∧ (∀ (env : Env) (p : Product) (w : World), ∃ w1 : World, ∀ next,
        productsAfterUpdateSuccessCreate env { record := p, next := next } w = next w1)
    ∧ (∀ (env : Env) (p : Product) (w : World), ∃ w1 : World, ∀ next,
        productsAfterUpdateSuccessRemove env { record := p, next := next } w = next w1)
    ∧ (∀ (env : Env) (o : Order) (w : World),
        (ordersAfterCreateSuccess env { record := o, next := chainEnd } w).2 = none)
    ∧ (∀ (env : Env) (p : Product) (w : World),
        (productsAfterUpdateSuccessCreate env { record := p, next := chainEnd } w).2 = none)
    ∧ (∀ (env : Env) (p : Product) (w : World),
        (productsAfterUpdateSuccessRemove env { record := p, next := chainEnd } w).2 = none) := by
  refine ⟨?_, ?_, ?_, ?_, ?_, ?_⟩
  · intro env o w
    exact ⟨afterOrderCreate env o w, fun next => ordersAfterCreateSuccess_next env ⟨o, next⟩ w⟩
  · intro env p w
    exact ⟨afterLowStockCreate env p w, fun next => create_next env ⟨p, next⟩ w⟩
  · intro env p w
    exact ⟨afterLowStockRemove env p w, fun next => remove_next env ⟨p, next⟩ w⟩
  · intro env o w
    rw [ordersAfterCreateSuccess_next]; rfl
  · intro env p w
    rw [create_next]; rfl
  · intro env p w
    rw [remove_next]; rfl

/-- C8, as stated, fails: on an empty store, an update of `p3` with stock 2
and reorder level 4 during which the existence lookup returns an error still
resolves the collection and saves a notification, because the hook discards
the error of the lookup. -/
theorem lookup_error_still_creates :
    ¬ ∀ (env : Env) (p : Product) (w : World),
        0 < p.stockQuantity ∧ p.stockQuantity ≤ p.reorderLevel →
        env.lookupErr = true ∨ env.collectionErr = true →
        (afterLowStockCreate env p w).notifications = w.notifications := by
  intro h
  have h1 := h ⟨false, true, false, false, "k1"⟩ ⟨"p3", 2, 4⟩ ⟨[], []⟩ (by decide)
    (Or.inl rfl)
  revert h1
  decide

/-- C8, amended. For an update with `0 < stockQuantity ≤ reorderLevel`: if the
notifications collection cannot be resolved, the creating hook issues no write,
leaves the store unchanged and hands control to the next handler; a lookup
that returns an error is not told apart from a lookup without a match: the hook
goes on to resolve the collection and, when that succeeds, attempts one save,
which on success stores the notification. -/
theorem create_failure_handling (env : Env) (p : Product) (w : World)
    (hband : 0 < p.stockQuantity ∧ p.stockQuantity ≤ p.reorderLevel) :
    (env.collectionErr = true →
        (afterLowStockCreate env p w).notifications = w.notifications
        ∧ (callsIssued w (afterLowStockCreate env p w)).any Call.isWrite = false
        ∧ ∀ next, productsAfterUpdateSuccessCreate env { record := p, next := next } w =
            next (afterLowStockCreate env p w))
    ∧ (env.lookupErr = true → env.collectionErr = false →
        callsIssued w (afterLowStockCreate env p w) =
          [lookupCall p.id, collectionCall, Call.save (lowStockRecord "" p.id)]
        ∧ (env.saveErr = false → (afterLowStockCreate env p w).notifications =
            w.notifications ++ [lowStockRecord env.newId p.id])
        ∧ (env.saveErr = true → (afterLowStockCreate env p w).notifications =
            w.notifications)) := by
  have hb : p.stockQuantity ≤ p.reorderLevel ∧ p.stockQuantity > 0 := ⟨hband.2, hband.1⟩
  refine ⟨?_, ?_⟩
  · intro hc
    refine ⟨?_, ?_, fun next => create_next env ⟨p, next⟩ w⟩
    · rcases create_worlds env p w with h | h | ⟨_, h⟩ | ⟨_, h⟩ | ⟨hc2, _, _⟩
      · rw [h]
      · rw [h]
      · rw [h]
      · rw [h]
      · rw [hc] at hc2; exact absurd hc2 (by decide)
    · rcases create_worlds env p w with h | h | ⟨_, h⟩ | ⟨_, h⟩ | ⟨hc2, _, _⟩
      · rw [h, callsIssued_self]; rfl
      · rw [h, callsIssued_append]; rfl
      · rw [h, callsIssued_append]; rfl
      · by_cases hf : env.lookupErr = true ∨
          w.notifications.find? (Filter.holds { type := "low_stock", product := p.id }) = none
        · rw [create_collectionErr env p w hb hf hc, callsIssued_append]; rfl
        · have hl : env.lookupErr = false := by
            cases hl : env.lookupErr
            · rfl
            · exact absurd (Or.inl hl) hf
          cases hr : w.notifications.find?
              (Filter.holds { type := "low_stock", product := p.id })
          · exact absurd (Or.inr hr) hf
          · rw [create_found env p w _ hb hl hr, callsIssued_append]; rfl
      · rw [hc] at hc2; exact absurd hc2 (by decide)
  · intro hl hc
    refine ⟨?_, ?_, ?_⟩
    · cases hs : env.saveErr
      · rw [create_saved env p w hb (Or.inl hl) hc hs, callsIssued_append]
      · rw [create_saveErr env p w hb (Or.inl hl) hc hs, callsIssued_append]
    · intro hs
      rw [create_saved env p w hb (Or.inl hl) hc hs]
    · intro hs
      rw [create_saveErr env p w hb (Or.inl hl) hc hs]

/-- Witness of C8 (amended): stock 2, reorder level 4, collection not
resolvable. -/
theorem create_failure_handling_witness :
    (afterLowStockCreate ⟨true, false, false, false, "k1"⟩ ⟨"p3", 2, 4⟩ ⟨[], []⟩).notifications
      = [] :=
  ((create_failure_handling ⟨true, false, false, false, "k1"⟩ ⟨"p3", 2, 4⟩ ⟨[], []⟩
    (by decide)).1 rfl).1

theorem lookupResult_err (env : Env) (p : Product) (w : World) (h : env.lookupErr = true) :
    lookupResult env p w = (none, some "query failed") := by
  simp [lookupResult, findFirstRecordByFilter, h]

theorem lookupResult_none (env : Env) (p : Product) (w : World) (h : env.lookupErr = false)
    (hf : w.notifications.find? (Filter.holds { type := "low_stock", product := p.id }) = none) :
    lookupResult env p w = (none, some "sql: no rows in result set") := by
  simp [lookupResult, findFirstRecordByFilter, h, hf]

theorem lookupResult_some (env : Env) (p : Product) (w : World) (r : Record)
    (h : env.lookupErr = false)
    (hf : w.notifications.find? (Filter.holds { type := "low_stock", product := p.id }) = some r) :
    lookupResult env p w = (some r, none) := by
  simp [lookupResult, findFirstRecordByFilter, h, hf]

/-- C9. Low stock clearing rule, no-op cases: for an update with
`stockQuantity > reorderLevel`, if the lookup of a low stock notification of
the product returns an error or no record, the removing hook issues the lookup
as its only store call (no delete) and leaves the store unchanged; and it
issues a delete if and only if the lookup returns a record without error, in
which case the delete is of that record. -/
theorem remove_noop_cases (env : Env) (p : Product) (w : World)
    (habove : p.stockQuantity > p.reorderLevel) :
    ((lookupResult env p w).1 = none ∨ (lookupResult env p w).2 ≠ none →
        (afterLowStockRemove env p w).notifications = w.notifications
        ∧ callsIssued w (afterLowStockRemove env p w) = [lookupCall p.id]
        ∧ (callsIssued w (afterLowStockRemove env p w)).any Call.isDelete = false)
    ∧ ((callsIssued w (afterLowStockRemove env p w)).any Call.isDelete = true ↔
        ∃ r, lookupResult env p w = (some r, none))
    ∧ (∀ r, lookupResult env p w = (some r, none) →
        callsIssued w (afterLowStockRemove env p w) = [lookupCall p.id, Call.delete r]) := by
  cases hl : env.lookupErr
  · cases hr : w.notifications.find? (Filter.holds { type := "low_stock", product := p.id })
    · have hw := remove_miss env p w habove (Or.inr hr)
      have hres := lookupResult_none env p w hl hr
      rw [hw, hres, callsIssued_append]
      refine ⟨fun _ => ⟨rfl, rfl, rfl⟩, ?_, ?_⟩
      · constructor
        · intro h; simp [lookupCall, Call.isDelete] at h
        · rintro ⟨r, h⟩; simp at h
      · intro r h; simp at h
    · rename_i r0
      have hres := lookupResult_some env p w r0 hl hr
      have hcalls : callsIssued w (afterLowStockRemove env p w) =
          [lookupCall p.id, Call.delete r0] := by
        cases hd : env.deleteErr
        · rw [remove_deleted env p w r0 habove hl hr hd, callsIssued_append]
        · rw [remove_deleteErr env p w r0 habove hl hr hd, callsIssued_append]
      rw [hres, hcalls]
      refine ⟨?_, ?_, ?_⟩
      · rintro (h | h)
        · simp at h
        · simp at h
      · constructor
        · intro _; exact ⟨r0, rfl⟩
        · intro _; rfl
      · intro r h
        have : r0 = r := by simpa using h
        rw [this]
  · have hw := remove_miss env p w habove (Or.inl hl)
    have hres := lookupResult_err env p w hl
    rw [hw, hres, callsIssued_append]
    refine ⟨fun _ => ⟨rfl, rfl, rfl⟩, ?_, ?_⟩
    · constructor
      · intro h; simp [lookupCall, Call.isDelete] at h
      · rintro ⟨r, h⟩; simp at h
    · intro r h; simp at h

/-- Witness of C9: stock 20 above reorder level 10 with a failing lookup on a
store that holds a low stock notification of the product. -/
theorem remove_noop_cases_witness :
    (afterLowStockRemove ⟨false, true, false, false, "z"⟩ ⟨"p1", 20, 10⟩
        ⟨[lowStockRecord "n1" "p1"], []⟩).notifications = [lowStockRecord "n1" "p1"] :=
  ((remove_noop_cases ⟨false, true, false, false, "z"⟩ ⟨"p1", 20, 10⟩
    ⟨[lowStockRecord "n1" "p1"], []⟩ (by decide)).1 (Or.inl rfl)).1

/-- C10. Persist failure: if the save of the order hook or of the creating
product hook fails, or the delete of the removing product hook fails, the
notifications after the hook are the notifications before it and the hook has
attempted that write at most once; and when an in-band update of a product
without low stock notification loses its notification to a failed save, a
later in-band update of the product whose collection resolution and save
succeed creates it. -/
theorem persist_failure_no_change (env envR env2 envR2 : Env) (o : Order) (p p2 : Product)
    (w : World) :
    (env.saveErr = true →
        (afterOrderCreate env o w).notifications = w.notifications
        ∧ (callsIssued w (afterOrderCreate env o w)).countP Call.isSave ≤ 1)
    ∧ (env.saveErr = true →
        (afterLowStockCreate env p w).notifications = w.notifications
        ∧ (callsIssued w (afterLowStockCreate env p w)).countP Call.isSave ≤ 1)
    ∧ (env.deleteErr = true →
        (afterLowStockRemove env p w).notifications = w.notifications
        ∧ (callsIssued w (afterLowStockRemove env p w)).countP Call.isDelete ≤ 1)
    ∧ (env.saveErr = true → env.collectionErr = false →
        0 < p.stockQuantity ∧ p.stockQuantity ≤ p.reorderLevel →
        (∀ r ∈ w.notifications, ¬ (r.type = "low_stock" ∧ r.product = p.id)) →
        p2.id = p.id → 0 < p2.stockQuantity ∧ p2.stockQuantity ≤ p2.reorderLevel →
        env2.collectionErr = false → env2.saveErr = false →
        (afterProductUpdate env envR p w).notifications = w.notifications
        ∧ Call.save (lowStockRecord "" p.id) ∈ callsIssued w (afterProductUpdate env envR p w)
        ∧ (afterProductUpdate env2 envR2 p2 (afterProductUpdate env envR p w)).notifications =
            w.notifications ++ [lowStockRecord env2.newId p.id]) := by
  refine ⟨?_, ?_, ?_, ?_⟩
  · intro hs
    cases hc : env.collectionErr
    · rw [order_saveErr env o w hc hs, callsIssued_append]
      exact ⟨rfl, by simp [lookupCall, collectionCall, Call.isSave, Call.isDelete, List.countP_cons]⟩
    · rw [order_collectionErr env o w hc, callsIssued_append]
      exact ⟨rfl, by simp [lookupCall, collectionCall, Call.isSave, Call.isDelete, List.countP_cons]⟩
  · intro hs
    rcases create_worlds env p w with h | h | ⟨_, h⟩ | ⟨_, h⟩ | ⟨_, hs2, _⟩
    · rw [h, callsIssued_self]; exact ⟨rfl, by simp [lookupCall, collectionCall, Call.isSave, Call.isDelete, List.countP_cons]⟩
    · rw [h, callsIssued_append]; exact ⟨rfl, by simp [lookupCall, collectionCall, Call.isSave, Call.isDelete, List.countP_cons]⟩
    · rw [h, callsIssued_append]; exact ⟨rfl, by simp [lookupCall, collectionCall, Call.isSave, Call.isDelete, List.countP_cons]⟩
    · rw [h, callsIssued_append]; exact ⟨rfl, by simp [lookupCall, collectionCall, Call.isSave, Call.isDelete, List.countP_cons]⟩
    · rw [hs] at hs2; exact absurd hs2 (by decide)
  · intro hd
    rcases remove_worlds env p w with h | h | ⟨r, _, h⟩ | ⟨r, hd2, _⟩
    · rw [h, callsIssued_self]; exact ⟨rfl, by simp [lookupCall, collectionCall, Call.isSave, Call.isDelete, List.countP_cons]⟩
    · rw [h, callsIssued_append]; exact ⟨rfl, by simp [lookupCall, collectionCall, Call.isSave, Call.isDelete, List.countP_cons]⟩
    · rw [h, callsIssued_append]; exact ⟨rfl, by simp [lookupCall, collectionCall, Call.isSave, Call.isDelete, List.countP_cons]⟩
    · rw [hd] at hd2; exact absurd hd2 (by decide)
  · intro hs hc hband hnone hid hband2 hc2 hs2
    have hfind := find_lowStock_none p.id _ hnone
    have h1 : afterProductUpdate env envR p w =
        { w with calls := w.calls ++
            [lookupCall p.id, collectionCall, Call.save (lowStockRecord "" p.id)] } := by
      rw [afterProductUpdate_eq, remove_idle envR p _ (not_lt.mpr hband.2),
        create_saveErr env p w ⟨hband.2, hband.1⟩ (Or.inr hfind) hc hs]
    rw [h1, callsIssued_append]
    refine ⟨rfl, by simp, ?_⟩
    rw [afterProductUpdate_eq, remove_idle envR2 p2 _ (not_lt.mpr hband2.2),
      create_saved env2 p2 _ ⟨hband2.2, hband2.1⟩ (Or.inr (by rw [hid]; exact hfind)) hc2 hs2,
      hid]

/-- Witness of C10: product `p1`, stock 8 then 6 with reorder level 10, on an
empty store; the first save fails, the second succeeds. -/
theorem persist_failure_no_change_witness :
    (afterProductUpdate ⟨false, false, false, false, "m2"⟩ ⟨false, false, false, false, "x"⟩
        ⟨"p1", 6, 10⟩
        (afterProductUpdate ⟨false, false, true, false, "m1"⟩ ⟨false, false, false, false, "x"⟩
          ⟨"p1", 8, 10⟩ ⟨[], []⟩)).notifications = [lowStockRecord "m2" "p1"] :=
  ((persist_failure_no_change ⟨false, false, true, false, "m1"⟩
    ⟨false, false, false, false, "x"⟩ ⟨false, false, false, false, "m2"⟩
    ⟨false, false, false, false, "x"⟩ ⟨"o1"⟩ ⟨"p1", 8, 10⟩ ⟨"p1", 6, 10⟩ ⟨[], []⟩).2.2.2
    rfl rfl (by decide) (by simp) rfl (by decide) rfl rfl).2.2

/-! ## Repeated order events -/

theorem order_calls (env : Env) (o : Order) (w : World) :
    callsIssued w (afterOrderCreate env o w) =
      if env.collectionErr then [collectionCall]
      else [collectionCall, Call.save (newOrderRecord "" o.id)] := by
  cases hc : env.collectionErr
  · cases hs : env.saveErr
    · rw [order_saved env o w hc hs, callsIssued_append]; rfl
    · rw [order_saveErr env o w hc hs, callsIssued_append]; rfl
  · rw [order_collectionErr env o w hc, callsIssued_append]; rfl

theorem order_added (env : Env) (o : Order) (w : World) :
    (afterOrderCreate env o w).notifications =
      w.notifications ++
        (if env.collectionErr || env.saveErr then [] else [newOrderRecord env.newId o.id]) := by
  cases hc : env.collectionErr
  · cases hs : env.saveErr
    · rw [order_saved env o w hc hs]; rfl
    · rw [order_saveErr env o w hc hs]; simp
  · rw [order_collectionErr env o w hc]; simp

theorem newOrderCount_append (orderId : String) (rs : List Record) (r : Record) :
    newOrderCount orderId (rs ++ [r]) =
      newOrderCount orderId rs + (if isNewOrderFor orderId r then 1 else 0) := by
  simp [newOrderCount, List.countP_append, List.countP_cons]

theorem isNewOrderFor_newOrderRecord (id orderId : String) :
    isNewOrderFor orderId (newOrderRecord id orderId) = true := by
  simp [isNewOrderFor, newOrderRecord]

theorem afterOrderCreates_cons (env : Env) (envs : List Env) (o : Order) (w : World) :
    afterOrderCreates (env :: envs) o w = afterOrderCreates envs o (afterOrderCreate env o w) :=
  rfl

theorem newOrderCount_afterOrderCreates (envs : List Env) (o : Order) (w : World)
    (hok : ∀ env ∈ envs, env.collectionErr = false ∧ env.saveErr = false) :
    newOrderCount o.id (afterOrderCreates envs o w).notifications =
      newOrderCount o.id w.notifications + envs.length := by
  induction envs generalizing w with
  | nil => rfl
  | cons env envs ih =>
    have h1 := hok env (List.mem_cons_self env envs)
    rw [afterOrderCreates_cons, ih _ (fun e he => hok e (List.mem_cons_of_mem env he)),
      order_saved env o w h1.1 h1.2, newOrderCount_append, isNewOrderFor_newOrderRecord]
    simp only [if_true, List.length_cons]
    omega

/-- C11. No dedup on new order notifications: the order hook issues no lookup
of existing notifications; the store calls it issues and the rows it adds are
the same for every store it runs on; and running it once per element of a list
of outcomes for the same order, every collection resolution and save
succeeding, raises the number of notifications with type `new_order` and
`order` that id by exactly the length of the list. -/
theorem new_order_no_dedup (env : Env) (envs : List Env) (o : Order) (w : World)
    (hok : ∀ e ∈ envs, e.collectionErr = false ∧ e.saveErr = false) :
    (callsIssued w (afterOrderCreate env o w)).any Call.isLookup = false
    ∧ (∀ v : World, callsIssued v (afterOrderCreate env o v) =
        callsIssued w (afterOrderCreate env o w))
    ∧ (∃ added : List Record, ∀ v : World,
        (afterOrderCreate env o v).notifications = v.notifications ++ added)
    ∧ newOrderCount o.id (afterOrderCreates envs o w).notifications =
        newOrderCount o.id w.notifications + envs.length := by
  refine ⟨?_, ?_, ?_, newOrderCount_afterOrderCreates envs o w hok⟩
  · rw [order_calls]
    cases env.collectionErr <;> rfl
  · intro v
    rw [order_calls, order_calls]
  · exact ⟨_, fun v => order_added env o v⟩

/-- Witness of C11: three order events for order `abc123` on a store that
already holds its notification. -/
theorem new_order_no_dedup_witness :
    newOrderCount "abc123"
      (afterOrderCreates
        [⟨false, false, false, false, "n2"⟩, ⟨false, false, false, false, "n3"⟩,
          ⟨false, false, false, false, "n4"⟩]
        ⟨"abc123"⟩ ⟨[newOrderRecord "n1" "abc123"], []⟩).notifications = 1 + 3 :=
  (new_order_no_dedup ⟨false, false, false, false, "n0"⟩
    [⟨false, false, false, false, "n2"⟩, ⟨false, false, false, false, "n3"⟩,
      ⟨false, false, false, false, "n4"⟩]
    ⟨"abc123"⟩ ⟨[newOrderRecord "n1" "abc123"], []⟩
    (by decide)).2.2.2

/-! ## Deleting by id in a store with distinct ids -/

theorem find_lowStock_spec (productId : String) (rs : List Record) (r : Record)
    (h : rs.find? (Filter.holds { type := "low_stock", product := productId }) = some r) :
    r ∈ rs ∧ isLowStockFor productId r = true :=
  ⟨List.mem_of_find?_eq_some h, by
    have := List.find?_some h
    rwa [filter_holds_lowStock] at this⟩

theorem eq_of_id_eq (rs : List Record) (hids : DistinctIds rs) (x y : Record)
    (hx : x ∈ rs) (hy : y ∈ rs) (h : x.id = y.id) : x = y :=
  List.inj_on_of_nodup_map hids hx hy h

theorem filter_frame_delete (productId : String) (rs : List Record) (r : Record)
    (hids : DistinctIds rs) (hr : r ∈ rs) (hp : isLowStockFor productId r = true) :
    (rs.filter (fun x => x.id != r.id)).filter (fun x => !isLowStockFor productId x) =
      rs.filter (fun x => !isLowStockFor productId x) := by
  rw [List.filter_filter]
  apply List.filter_congr
  intro x hx
  by_cases hq : isLowStockFor productId x = true
  · simp [hq]
  · have hne : x.id ≠ r.id := by
      intro hid
      have := eq_of_id_eq rs hids x r hx hr hid
      rw [this] at hq
      exact hq hp
    simp [hq, hne]

theorem count_delete (productId : String) (rs : List Record) (r : Record)
    (hids : DistinctIds rs) (hr : r ∈ rs) (hp : isLowStockFor productId r = true) :
    lowStockCount productId (rs.filter (fun x => x.id != r.id)) + 1 =
      lowStockCount productId rs := by
  induction rs with
  | nil => simp at hr
  | cons x xs ih =>
    have hnd : x.id ∉ xs.map Record.id ∧ DistinctIds xs := by
      simpa [DistinctIds] using hids
    by_cases hxr : x = r
    · subst hxr
      have hkeep : xs.filter (fun y => y.id != x.id) = xs := by
        rw [List.filter_eq_self]
        intro y hy
        have : y.id ≠ x.id := fun h => hnd.1 (by rw [← h]; exact List.mem_map_of_mem _ hy)
        simpa using this
      simp [lowStockCount, List.filter_cons, hkeep, List.countP_cons, hp]
    · have hrxs : r ∈ xs := by
        rcases List.mem_cons.mp hr with h | h
        · exact absurd h.symm hxr
        · exact h
      have hne : x.id ≠ r.id := fun h => hnd.1 (by rw [h]; exact List.mem_map_of_mem _ hrxs)
      have hih := ih hnd.2 hrxs
      have hne2 : (x.id != r.id) = true := by simpa using hne
      simp only [lowStockCount, List.filter_cons, hne2, if_true, List.countP_cons] at hih ⊢
      omega

/-- C12. Frame of the rules: on a store whose record ids are distinct, after
both product hooks have run for an update of `p` the rows that are not low
stock notifications of `p` are exactly the ones from before, in the same order
and unchanged, so each of them is still present; and the order hook only
appends: the rows from before form the beginning of the rows afterwards, for
every store. -/
theorem rules_frame (envC envR env : Env) (p : Product) (o : Order) (w : World)
    (hids : DistinctIds w.notifications) :
    (afterProductUpdate envC envR p w).notifications.filter
        (fun r => !isLowStockFor p.id r) =
      w.notifications.filter (fun r => !isLowStockFor p.id r)
    ∧ (∀ r ∈ w.notifications, ¬ (r.type = "low_stock" ∧ r.product = p.id) →
        r ∈ (afterProductUpdate envC envR p w).notifications)
    ∧ (∀ r ∈ (afterProductUpdate envC envR p w).notifications,
        ¬ (r.type = "low_stock" ∧ r.product = p.id) → r ∈ w.notifications)
    ∧ (∃ added : List Record,
        (afterOrderCreate env o w).notifications = w.notifications ++ added) := by
  have hcreate : (afterLowStockCreate envC p w).notifications.filter
      (fun r => !isLowStockFor p.id r) =
      w.notifications.filter (fun r => !isLowStockFor p.id r) := by
    rcases create_rows envC p w with h | ⟨_, h⟩
    · rw [h]
    · rw [h, List.filter_append]
      simp [isLowStockFor_lowStockRecord]
  have hframe : (afterProductUpdate envC envR p w).notifications.filter
      (fun r => !isLowStockFor p.id r) =
      w.notifications.filter (fun r => !isLowStockFor p.id r) := by
    rw [afterProductUpdate_eq]
    by_cases hb : p.stockQuantity > p.reorderLevel
    · have hidle : afterLowStockCreate envC p w = w :=
        create_idle envC p w (fun h => absurd hb (not_lt.mpr h.1))
      rw [hidle]
      rcases remove_rows envR p w with h | ⟨r, hf, h⟩
      · rw [h]
      · have hs := find_lowStock_spec p.id _ r hf
        rw [h, filter_frame_delete p.id _ r hids hs.1 hs.2]
    · rw [remove_idle envR p _ hb, hcreate]
  have hmem : ∀ r, (r ∈ (afterProductUpdate envC envR p w).notifications ∧
      ¬ (r.type = "low_stock" ∧ r.product = p.id)) ↔
      (r ∈ w.notifications ∧ ¬ (r.type = "low_stock" ∧ r.product = p.id)) := by
    intro r
    have h1 : r ∈ (afterProductUpdate envC envR p w).notifications.filter
        (fun r => !isLowStockFor p.id r) ↔
        r ∈ w.notifications.filter (fun r => !isLowStockFor p.id r) := by rw [hframe]
    have hq : (!isLowStockFor p.id r) = true ↔ ¬ (r.type = "low_stock" ∧ r.product = p.id) := by
      rw [← isLowStockFor_iff]; simp
    simp only [List.mem_filter, hq] at h1
    exact h1
  refine ⟨hframe, ?_, ?_, ⟨_, order_added env o w⟩⟩
  · intro r hr hn
    exact ((hmem r).mpr ⟨hr, hn⟩).1
  · intro r hr hn
    exact ((hmem r).mp ⟨hr, hn⟩).1

/-- Witness of C12: a store with a new order notification, a low stock
notification of `p2` and one of `p1`; the update of `p1` removes only the
last. -/
theorem rules_frame_witness :
    (afterProductUpdate ⟨false, false, false, false, "x"⟩ ⟨false, false, false, false, "y"⟩
        ⟨"p1", 20, 10⟩
        ⟨[newOrderRecord "a" "o1", lowStockRecord "b" "p2", lowStockRecord "c" "p1"],
          []⟩).notifications.filter (fun r => !isLowStockFor "p1" r) =
      [newOrderRecord "a" "o1", lowStockRecord "b" "p2"] :=
  (rules_frame ⟨false, false, false, false, "x"⟩ ⟨false, false, false, false, "y"⟩
    ⟨false, false, false, false, "z"⟩ ⟨"p1", 20, 10⟩ ⟨"o1"⟩
    ⟨[newOrderRecord "a" "o1", lowStockRecord "b" "p2", lowStockRecord "c" "p1"], []⟩
    (by decide)).1

theorem find_lowStock_of_count (productId : String) (rs : List Record)
    (h : 1 ≤ lowStockCount productId rs) :
    ∃ r, rs.find? (Filter.holds { type := "low_stock", product := productId }) = some r := by
  have hpos : 0 < List.countP (isLowStockFor productId) rs := h
  rw [List.countP_pos_iff] at hpos
  obtain ⟨r, hr, hp⟩ := hpos
  exact find_lowStock_some productId rs ⟨r, hr, (isLowStockFor_iff productId r).mp hp⟩

/-- C17. Clearing removes a single record: on a store with distinct record
ids that holds `k ≥ 1` low stock notifications of `p`, one update of `p` with
`stockQuantity > reorderLevel`, lookup and delete succeeding, leaves exactly
`k - 1` of them, for the removing hook alone and for the chain of both product
hooks: the hook deletes the record its lookup returned, the first match, and
issues no other delete. -/
theorem remove_deletes_one (envC envR : Env) (p : Product) (w : World)
    (hids : DistinctIds w.notifications)
    (hk : 1 ≤ lowStockCount p.id w.notifications)
    (habove : p.stockQuantity > p.reorderLevel)
    (hlook : envR.lookupErr = false) (hdel : envR.deleteErr = false) :
    lowStockCount p.id (afterLowStockRemove envR p w).notifications =
        lowStockCount p.id w.notifications - 1
    ∧ lowStockCount p.id (afterProductUpdate envC envR p w).notifications =
        lowStockCount p.id w.notifications - 1
    ∧ ∃ r, w.notifications.find? (isLowStockFor p.id) = some r
        ∧ (afterLowStockRemove envR p w).notifications =
            w.notifications.filter (fun x => x.id != r.id)
        ∧ callsIssued w (afterLowStockRemove envR p w) = [lookupCall p.id, Call.delete r] := by
  obtain ⟨r, hf⟩ := find_lowStock_of_count p.id _ hk
  have hs := find_lowStock_spec p.id _ r hf
  have hw := remove_deleted envR p w r habove hlook hf hdel
  have hcount : lowStockCount p.id (afterLowStockRemove envR p w).notifications =
      lowStockCount p.id w.notifications - 1 := by
    rw [hw]
    have := count_delete p.id _ r hids hs.1 hs.2
    show lowStockCount p.id (w.notifications.filter (fun x => x.id != r.id)) = _
    omega
  refine ⟨hcount, ?_, r, hf, by rw [hw], by rw [hw, callsIssued_append]⟩
  rw [afterProductUpdate_eq,
    create_idle envC p w (fun h => absurd habove (not_lt.mpr h.1))]
  exact hcount

/-- Witness of C17: two low stock notifications of `p1`, stock 20 above
reorder level 10; one of the two remains. -/
theorem remove_deletes_one_witness :
    lowStockCount "p1"
      (afterProductUpdate ⟨false, false, false, false, "x"⟩ ⟨false, false, false, false, "y"⟩
        ⟨"p1", 20, 10⟩
        ⟨[lowStockRecord "n1" "p1", lowStockRecord "n2" "p1"], []⟩).notifications = 2 - 1 :=
  (remove_deletes_one ⟨false, false, false, false, "x"⟩ ⟨false, false, false, false, "y"⟩
    ⟨"p1", 20, 10⟩ ⟨[lowStockRecord "n1" "p1", lowStockRecord "n2" "p1"], []⟩
    (by decide) (by decide) (by decide) rfl rfl).2.1

/-! ## When the product hooks act -/

theorem create_acts_iff (env : Env) (p : Product) (w : World) :
    callsIssued w (afterLowStockCreate env p w) ≠ [] ↔
      createCondition p.stockQuantity p.reorderLevel := by
  unfold createCondition
  constructor
  · intro h
    by_contra hb
    rw [create_idle env p w hb, callsIssued_self] at h
    exact h rfl
  · intro hb
    rcases create_worlds env p w with h | h | ⟨_, h⟩ | ⟨_, h⟩ | ⟨_, _, h⟩
    · exfalso
      have hc : (afterLowStockCreate env p w).calls = w.calls := by rw [h]
      by_cases hf : env.lookupErr = true ∨
          w.notifications.find? (Filter.holds { type := "low_stock", product := p.id }) = none
      · cases hcl : env.collectionErr
        · cases hs : env.saveErr
          · rw [create_saved env p w hb hf hcl hs] at hc; simp at hc
          · rw [create_saveErr env p w hb hf hcl hs] at hc; simp at hc
        · rw [create_collectionErr env p w hb hf hcl] at hc; simp at hc
      · have hl : env.lookupErr = false := by
          cases hl : env.lookupErr
          · rfl
          · exact absurd (Or.inl hl) hf
        cases hr : w.notifications.find?
            (Filter.holds { type := "low_stock", product := p.id })
        · exact absurd (Or.inr hr) hf
        · rw [create_found env p w _ hb hl hr] at hc; simp at hc
    · rw [h, callsIssued_append]; simp
    · rw [h, callsIssued_append]; simp
    · rw [h, callsIssued_append]; simp
    · rw [h, callsIssued_append]; simp

theorem remove_acts_iff (env : Env) (p : Product) (w : World) :
    callsIssued w (afterLowStockRemove env p w) ≠ [] ↔
      removeCondition p.stockQuantity p.reorderLevel := by
  unfold removeCondition
  constructor
  · intro h
    by_contra hb
    rw [remove_idle env p w hb, callsIssued_self] at h
    exact h rfl
  · intro hb
    rcases remove_worlds env p w with h | h | ⟨r, _, h⟩ | ⟨r, _, h⟩
    · exfalso
      have hc : (afterLowStockRemove env p w).calls = w.calls := by rw [h]
      cases hl : env.lookupErr
      · cases hr : w.notifications.find?
            (Filter.holds { type := "low_stock", product := p.id })
        · rw [remove_miss env p w hb (Or.inr hr)] at hc; simp at hc
        · cases hd : env.deleteErr
          · rw [remove_deleted env p w _ hb hl hr hd] at hc; simp at hc
          · rw [remove_deleteErr env p w _ hb hl hr hd] at hc; simp at hc
      · rw [remove_miss env p w hb (Or.inl hl)] at hc; simp at hc
    · rw [h, callsIssued_append]; simp
    · rw [h, callsIssued_append]; simp
    · rw [h, callsIssued_append]; simp

/-- C14. Predicate partition: for non-negative `stockQuantity` and
`reorderLevel` exactly one of the condition of the creating hook
(`stockQuantity ≤ reorderLevel` and `stockQuantity > 0`), the condition of the
removing hook (`stockQuantity > reorderLevel`) and `stockQuantity = 0` holds;
the two conditions never hold together; at `stockQuantity = reorderLevel > 0`
the creating condition holds and the removing one does not; and each hook
issues a store call exactly when its condition holds. -/
theorem predicate_partition (env : Env) (p : Product) (w : World)
    (hstock : 0 ≤ p.stockQuantity) (hlevel : 0 ≤ p.reorderLevel) :
    (createCondition p.stockQuantity p.reorderLevel
        ∨ removeCondition p.stockQuantity p.reorderLevel ∨ p.stockQuantity = 0)
    ∧ ¬ (createCondition p.stockQuantity p.reorderLevel
          ∧ removeCondition p.stockQuantity p.reorderLevel)
    ∧ ¬ (createCondition p.stockQuantity p.reorderLevel ∧ p.stockQuantity = 0)
    ∧ ¬ (removeCondition p.stockQuantity p.reorderLevel ∧ p.stockQuantity = 0)
    ∧ (p.stockQuantity = p.reorderLevel → p.reorderLevel > 0 →
        createCondition p.stockQuantity p.reorderLevel
          ∧ ¬ removeCondition p.stockQuantity p.reorderLevel)
    ∧ (callsIssued w (afterLowStockCreate env p w) ≠ [] ↔
        createCondition p.stockQuantity p.reorderLevel)
    ∧ (callsIssued w (afterLowStockRemove env p w) ≠ [] ↔
        removeCondition p.stockQuantity p.reorderLevel) := by
  refine ⟨?_, ?_, ?_, ?_, ?_, create_acts_iff env p w, remove_acts_iff env p w⟩
  · unfold createCondition removeCondition; omega
  · unfold createCondition removeCondition; omega
  · unfold createCondition; omega
  · unfold removeCondition; omega
  · unfold createCondition removeCondition; omega

/-- Witness of C14: stock 10 at reorder level 10. -/
theorem predicate_partition_witness :
    createCondition 10 10 ∧ ¬ removeCondition 10 10 :=
  (predicate_partition ⟨false, false, false, false, "x"⟩ ⟨"p1", 10, 10⟩ ⟨[], []⟩
    (by decide) (by decide)).2.2.2.2.1 rfl (by decide)

/-- C15. Order independence of the two product hooks: for every store, every
update and every outcome of the store calls, the chain with the creating hook
first and the chain with the removing hook first hand the same world (the same
notifications and the same store calls) to the rest of the chain and return
the same result. -/
theorem product_hooks_commute (envC envR : Env) (p : Product) (w : World) :
    (afterProductUpdateSwapped envC envR p w).notifications =
        (afterProductUpdate envC envR p w).notifications
    ∧ afterProductUpdateSwapped envC envR p w = afterProductUpdate envC envR p w
    ∧ afterLowStockCreate envC p (afterLowStockRemove envR p w) =
        afterLowStockRemove envR p (afterLowStockCreate envC p w)
    ∧ ∀ next, productsAfterUpdateSuccessSwapped envC envR { record := p, next := next } w =
        productsAfterUpdateSuccess envC envR { record := p, next := next } w := by
  have hcomm : afterLowStockCreate envC p (afterLowStockRemove envR p w) =
      afterLowStockRemove envR p (afterLowStockCreate envC p w) := by
    by_cases hb : p.stockQuantity > p.reorderLevel
    · have hc : ¬ (p.stockQuantity ≤ p.reorderLevel ∧ p.stockQuantity > 0) :=
        fun h => absurd hb (not_lt.mpr h.1)
      rw [create_idle envC p _ hc, create_idle envC p _ hc]
    · rw [remove_idle envR p _ hb, remove_idle envR p _ hb]
  have hswap : ∀ next,
      productsAfterUpdateSuccessSwapped envC envR { record := p, next := next } w =
        next (afterLowStockCreate envC p (afterLowStockRemove envR p w)) := by
    intro next
    unfold productsAfterUpdateSuccessSwapped
    rw [remove_next]
    exact create_next envC ⟨p, next⟩ _
  have hworld : afterProductUpdateSwapped envC envR p w = afterProductUpdate envC envR p w := by
    rw [afterProductUpdate_eq, ← hcomm]
    unfold afterProductUpdateSwapped
    rw [hswap]
    rfl
  refine ⟨by rw [hworld], hworld, hcomm, ?_⟩
  intro next
  rw [hswap, chain_next, hcomm]

/-- C16. At most one write per rule: for every event, store and outcome of
the store calls, the order hook, the creating product hook and the removing
product hook each issue at most one `Save` or `Delete`, and the two product
hooks run for one update issue at most one between them. -/
theorem at_most_one_write (env envC envR : Env) (o : Order) (p : Product) (w : World) :
    (callsIssued w (afterOrderCreate env o w)).countP Call.isWrite ≤ 1
    ∧ (callsIssued w (afterLowStockCreate env p w)).countP Call.isWrite ≤ 1
    ∧ (callsIssued w (afterLowStockRemove env p w)).countP Call.isWrite ≤ 1
    ∧ (callsIssued w (afterProductUpdate envC envR p w)).countP Call.isWrite ≤ 1 := by
  have hcreate : ∀ (e : Env),
      (callsIssued w (afterLowStockCreate e p w)).countP Call.isWrite ≤ 1 := by
    intro e
    rcases create_worlds e p w with h | h | ⟨_, h⟩ | ⟨_, h⟩ | ⟨_, _, h⟩
    · rw [h, callsIssued_self]; simp
    · rw [h, callsIssued_append]
      simp [lookupCall, collectionCall, Call.isWrite, List.countP_cons]
    · rw [h, callsIssued_append]
      simp [lookupCall, collectionCall, Call.isWrite, List.countP_cons]
    · rw [h, callsIssued_append]
      simp [lookupCall, collectionCall, Call.isWrite, List.countP_cons]
    · rw [h, callsIssued_append]
      simp [lookupCall, collectionCall, Call.isWrite, List.countP_cons]
  have hremove : ∀ (e : Env),
      (callsIssued w (afterLowStockRemove e p w)).countP Call.isWrite ≤ 1 := by
    intro e
    rcases remove_worlds e p w with h | h | ⟨r, _, h⟩ | ⟨r, _, h⟩
    · rw [h, callsIssued_self]; simp
    · rw [h, callsIssued_append]
      simp [lookupCall, Call.isWrite, List.countP_cons]
    · rw [h, callsIssued_append]
      simp [lookupCall, Call.isWrite, List.countP_cons]
    · rw [h, callsIssued_append]
      simp [lookupCall, Call.isWrite, List.countP_cons]
  refine ⟨?_, hcreate env, hremove env, ?_⟩
  · rw [order_calls]
    cases env.collectionErr <;>
      simp [collectionCall, Call.isWrite, List.countP_cons]
  · rw [afterProductUpdate_eq]
    by_cases hb : p.stockQuantity > p.reorderLevel
    · rw [create_idle envC p w (fun h => absurd hb (not_lt.mpr h.1))]
      exact hremove envR
    · rw [remove_idle envR p _ hb]
      exact hcreate envC

/-! ## The two-state machine of the specification -/

theorem hasLowStock_eq (productId : String) (rs : List Record) :
    hasLowStock productId rs = decide (0 < lowStockCount productId rs) := by
  unfold hasLowStock lowStockCount
  rw [Bool.eq_iff_iff, List.any_eq_true, decide_eq_true_iff, List.countP_pos_iff]

theorem eq_of_mem_short (l : List Record) (x y : Record) (hl : l.length ≤ 1)
    (hx : x ∈ l) (hy : y ∈ l) : x = y := by
  match l, hl, hx, hy with
  | [a], _, hx, hy =>
    rw [List.mem_singleton] at hx hy
    rw [hx, hy]
  | _ :: _ :: _, hl, _, _ => simp at hl

theorem count_delete_single (productId : String) (rs : List Record) (r : Record)
    (hone : lowStockCount productId rs ≤ 1) (hr : r ∈ rs)
    (hp : isLowStockFor productId r = true) :
    lowStockCount productId (rs.filter (fun x => x.id != r.id)) = 0 := by
  unfold lowStockCount
  rw [List.countP_eq_zero]
  intro x hx hpx
  rw [List.mem_filter] at hx
  have hlen : (rs.filter (isLowStockFor productId)).length ≤ 1 := by
    rw [← List.countP_eq_length_filter]; exact hone
  have hxr : x = r := eq_of_mem_short _ x r hlen
    (List.mem_filter.mpr ⟨hx.1, hpx⟩) (List.mem_filter.mpr ⟨hr, hp⟩)
  rw [hxr] at hx
  simp at hx

theorem update_count (u : ProductUpdate) (w : World)
    (hone : lowStockCount u.product.id w.notifications ≤ 1) (hok : u.succeeds) :
    lowStockCount u.product.id
        (afterProductUpdate u.envC u.envR u.product w).notifications =
      if specMachineStep (hasLowStock u.product.id w.notifications) u.product then 1 else 0 := by
  obtain ⟨hcl, hcc, hcs, hrl, hrd⟩ := hok
  rw [afterProductUpdate_eq]
  unfold specMachineStep
  by_cases hband : 0 < u.product.stockQuantity ∧ u.product.stockQuantity ≤ u.product.reorderLevel
  · have hb : u.product.stockQuantity ≤ u.product.reorderLevel ∧ u.product.stockQuantity > 0 :=
      ⟨hband.2, hband.1⟩
    rw [remove_idle u.envR u.product _ (not_lt.mpr hband.2), if_pos hband]
    cases hf : w.notifications.find?
        (Filter.holds { type := "low_stock", product := u.product.id })
    · rw [create_saved u.envC u.product w hb (Or.inr hf) hcc hcs]
      show lowStockCount u.product.id (w.notifications ++ _) = _
      rw [lowStockCount_append, lowStockCount_zero_of_find_none _ _ hf,
        isLowStockFor_lowStockRecord]
      simp
    · rename_i r
      rw [create_found u.envC u.product w r hb hcl hf]
      have hs := find_lowStock_spec u.product.id _ r hf
      have hpos : 0 < lowStockCount u.product.id w.notifications :=
        List.countP_pos_iff.mpr ⟨r, hs.1, hs.2⟩
      show lowStockCount u.product.id w.notifications = _
      simp only [if_true]
      omega
  · rw [if_neg hband]
    have hc : ¬ (u.product.stockQuantity ≤ u.product.reorderLevel
        ∧ u.product.stockQuantity > 0) := fun h => hband ⟨h.2, h.1⟩
    rw [create_idle u.envC u.product w hc]
    by_cases habove : u.product.stockQuantity > u.product.reorderLevel
    · rw [if_pos habove]
      cases hf : w.notifications.find?
          (Filter.holds { type := "low_stock", product := u.product.id })
      · rw [remove_miss u.envR u.product w habove (Or.inr hf)]
        exact lowStockCount_zero_of_find_none _ _ hf
      · rename_i r
        have hs := find_lowStock_spec u.product.id _ r hf
        rw [remove_deleted u.envR u.product w r habove hrl hf hrd]
        exact count_delete_single u.product.id _ r hone hs.1 hs.2
    · rw [if_neg habove, remove_idle u.envR u.product w habove, hasLowStock_eq]
      by_cases hz : 0 < lowStockCount u.product.id w.notifications
      · simp only [hz, decide_True, if_true]; omega
      · simp only [hz, decide_False]; simp; omega

theorem runUpdates_cons (u : ProductUpdate) (us : List ProductUpdate) (w : World) :
    runUpdates (u :: us) w = runUpdates us (afterProductUpdate u.envC u.envR u.product w) :=
  rfl

theorem specMachineRun_cons (s : Bool) (u : ProductUpdate) (us : List ProductUpdate) :
    specMachineRun s (u :: us) = specMachineRun (specMachineStep s u.product) us :=
  rfl

theorem runUpdates_count (productId : String) (us : List ProductUpdate) (w : World)
    (hone : lowStockCount productId w.notifications ≤ 1)
    (hid : ∀ u ∈ us, u.product.id = productId) (hok : ∀ u ∈ us, u.succeeds) :
    lowStockCount productId (runUpdates us w).notifications =
      if specMachineRun (hasLowStock productId w.notifications) us then 1 else 0 := by
  induction us generalizing w with
  | nil =>
    show lowStockCount productId w.notifications = _
    rw [hasLowStock_eq]
    by_cases hz : 0 < lowStockCount productId w.notifications
    · simp only [specMachineRun, List.foldl_nil, hz, decide_True, if_true]; omega
    · simp only [specMachineRun, List.foldl_nil, hz, decide_False]; simp; omega
  | cons u us ih =>
    have hu := hid u (List.mem_cons_self u us)
    have hstep := update_count u w (by rw [hu]; exact hone) (hok u (List.mem_cons_self u us))
    rw [hu] at hstep
    have hone1 : lowStockCount productId
        (afterProductUpdate u.envC u.envR u.product w).notifications ≤ 1 := by
      rw [hstep]; split <;> simp
    have hhas : hasLowStock productId
        (afterProductUpdate u.envC u.envR u.product w).notifications =
        specMachineStep (hasLowStock productId w.notifications) u.product := by
      rw [hasLowStock_eq, hstep]
      generalize specMachineStep (hasLowStock productId w.notifications) u.product = b
      cases b <;> simp
    rw [runUpdates_cons, specMachineRun_cons,
      ih _ hone1 (fun v hv => hid v (List.mem_cons_of_mem u hv))
        (fun v hv => hok v (List.mem_cons_of_mem u hv)), hhas]

/-- C13. State machine conformance: for every finite sequence of updates of
one product, handled one at a time with every store call succeeding, on a
store holding at most one low stock notification of the product, after each
update (after every initial part of the sequence) a low stock notification of
the product exists exactly when the fold of the two-state machine of the
specification says so, and the number of such notifications is 1 or 0
accordingly.  The statement needs no sign condition on `stockQuantity` and
`reorderLevel`, so it covers the non-negative values of the claim. -/
theorem state_machine_conformance (productId : String) (us : List ProductUpdate) (w : World)
    (hone : lowStockCount productId w.notifications ≤ 1)
    (hid : ∀ u ∈ us, u.product.id = productId)
    (hok : ∀ u ∈ us, u.succeeds) (k : Nat) :
    hasLowStock productId (runUpdates (us.take k) w).notifications =
        specMachineRun (hasLowStock productId w.notifications) (us.take k)
    ∧ lowStockCount productId (runUpdates (us.take k) w).notifications =
        if specMachineRun (hasLowStock productId w.notifications) (us.take k) then 1 else 0 := by
  have hcount := runUpdates_count productId (us.take k) w hone
    (fun u hu => hid u (List.mem_of_mem_take hu))
    (fun u hu => hok u (List.mem_of_mem_take hu))
  refine ⟨?_, hcount⟩
  rw [hasLowStock_eq, hcount]
  generalize specMachineRun (hasLowStock productId w.notifications) (us.take k) = b
  cases b <;> simp

/-- Witness of C13: the scenario of the specification, reorder level 10 and
stock 8, 5, 20, 0 on an empty store, gives the counts 1, 1, 0, 0. -/
theorem state_machine_conformance_witness :
    (lowStockCount "P" (runUpdates (scenarioUpdates.take 4) ⟨[], []⟩).notifications =
        if specMachineRun (hasLowStock "P" []) (scenarioUpdates.take 4) then 1 else 0)
    ∧ lowStockCount "P" (runUpdates (scenarioUpdates.take 1) ⟨[], []⟩).notifications = 1
    ∧ lowStockCount "P" (runUpdates (scenarioUpdates.take 2) ⟨[], []⟩).notifications = 1
    ∧ lowStockCount "P" (runUpdates (scenarioUpdates.take 3) ⟨[], []⟩).notifications = 0
    ∧ lowStockCount "P" (runUpdates (scenarioUpdates.take 4) ⟨[], []⟩).notifications = 0 :=
  ⟨(state_machine_conformance "P" scenarioUpdates ⟨[], []⟩ (by decide) (by decide)
      (by decide) 4).2,
    by decide, by decide, by decide, by decide⟩

end StoreHooks
